import Mathlib

/-!
Verification of the hpy-framework build pipeline (hpy_core).

This file gives a shallow embedding, in Lean 4, of the parts of the
hpy_core Python package that the checked claims are about:

* `parsing.py`   : `parse_hpy_file` and its regex extractions;
* `building.py`  : `build_output_html`, `compile_hpy_file`,
  `compile_directory`, `copy_and_inject_py_script`;
* `watching.py`  : the dependency maps of `HpyDirectoryEventHandler`
  (`_update_dependencies` / `_remove_dependencies`);
* `components.py`: the depth-bounded component expander (modelled from
  the spec, since `_render_content_recursively` is referenced but not
  present in the sources).

Python strings are modelled as Lean `String`; the regular-expression
scans of the source are implemented as executable scanners over
`List Char` that mirror the leftmost-match semantics of the specific
patterns used by the code.  File-system state is made explicit where a
function reads or writes files.  Functions that can raise return
`Except`.
-/

set_option maxRecDepth 100000

/-! ## String scanning primitives

The Python code drives all of its structure recovery through `re` and
`str` operations (`in`, `replace`, `strip`, `find`).  We implement the
needed primitives over `List Char`, with explicit fuel where the
recursion is not structural, so that everything reduces by `decide`.
-/

/-- Case-sensitive test that `pat` is an initial segment of `s`. -/
def leadsWith : List Char → List Char → Bool
  | [], _ => true
  | _ :: _, [] => false
  | a :: as, b :: bs => a == b && leadsWith as bs

/-- Case-insensitive variant of `leadsWith` (models `re.IGNORECASE`). -/
def leadsWithCI : List Char → List Char → Bool
  | [], _ => true
  | _ :: _, [] => false
  | a :: as, b :: bs => (a.toLower == b.toLower) && leadsWithCI as bs

/-- Does `pat` occur (case-sensitively) somewhere in `s`?  This is the
executable form of the Python substring test `pat in s`. -/
def occursL (pat : List Char) : List Char → Bool
  | [] => pat.isEmpty
  | c :: rest => leadsWith pat (c :: rest) || occursL pat rest

/-- Python `pat in s` on `String`s. -/
def occursB (pat s : String) : Bool := occursL pat.data s.data

/-- Propositional form of substring occurrence: `s` splits as
`a ++ pat ++ b`. -/
def OccursIn (pat s : String) : Prop :=
  ∃ a b : List Char, s.data = a ++ pat.data ++ b

theorem leadsWith_iff (p s : List Char) :
    leadsWith p s = true ↔ ∃ t, s = p ++ t := by
  induction p generalizing s with
  | nil => simp [leadsWith]
  | cons a as ih =>
    cases s with
    | nil => simp [leadsWith]
    | cons b bs =>
      simp only [leadsWith, Bool.and_eq_true, beq_iff_eq, ih bs,
        List.cons_append, List.cons.injEq]
      constructor
      · rintro ⟨h1, t, h2⟩
        exact ⟨t, h1.symm, h2⟩
      · rintro ⟨t, h1, h2⟩
        exact ⟨h1.symm, t, h2⟩

theorem occursL_iff (p s : List Char) :
    occursL p s = true ↔ ∃ a b, s = a ++ p ++ b := by
  induction s with
  | nil =>
    simp only [occursL, List.isEmpty_iff]
    constructor
    · intro h
      exact ⟨[], [], by simp [h]⟩
    · rintro ⟨a, b, h⟩
      rcases List.append_eq_nil.mp h.symm with ⟨h1, h2⟩
      exact (List.append_eq_nil.mp h1).2
  | cons c rest ih =>
    simp only [occursL, Bool.or_eq_true, leadsWith_iff, ih]
    constructor
    · rintro (⟨t, h⟩ | ⟨a, b, h⟩)
      · exact ⟨[], t, by simp [h]⟩
      · exact ⟨c :: a, b, by simp [h]⟩
    · rintro ⟨a, b, h⟩
      cases a with
      | nil =>
        exact Or.inl ⟨b, by simpa using h⟩
      | cons a0 as =>
        simp only [List.cons_append, List.cons.injEq] at h
        exact Or.inr ⟨as, b, h.2⟩

theorem occursB_iff (pat s : String) :
    occursB pat s = true ↔ OccursIn pat s := by
  unfold occursB OccursIn
  constructor
  · intro h
    rcases (occursL_iff pat.data s.data).mp h with ⟨a, b, hab⟩
    exact ⟨a, b, hab⟩
  · rintro ⟨a, b, hab⟩
    exact (occursL_iff pat.data s.data).mpr ⟨a, b, hab⟩

/-- Python `str.strip()`: drop leading and trailing whitespace.
(Structural implementation; `String.pyStrip` itself is byte-position
based and does not reduce in the kernel.) -/
def String.pyStrip (s : String) : String :=
  ⟨((s.data.dropWhile Char.isWhitespace).reverse.dropWhile Char.isWhitespace).reverse⟩

/-- Split on a single separator character (`str.split(sep)` for the
one-character separators the sources use). -/
def splitOnChar (c : Char) : List Char → List (List Char)
  | [] => [[]]
  | x :: rest =>
    match splitOnChar c rest with
    | [] => [[x]]
    | h :: t => if x == c then [] :: h :: t else (x :: h) :: t

/-- `splitOnChar` on `String`s. -/
def splitOnCharStr (c : Char) (s : String) : List String :=
  (splitOnChar c s.data).map (fun l => ⟨l⟩)

/-- First index at which `pat` matches `s` under matcher `m`
(leftmost-match semantics of `re.search`). -/
def findIdxBy (m : List Char → List Char → Bool) (pat : List Char) :
    List Char → Option Nat
  | [] => if m pat [] then some 0 else none
  | c :: rest =>
    if m pat (c :: rest) then some 0
    else (findIdxBy m pat rest).map (· + 1)

/-- Case-sensitive leftmost occurrence index. -/
def findIdxCS (pat s : List Char) : Option Nat := findIdxBy leadsWith pat s

/-- Case-insensitive leftmost occurrence index (`re.IGNORECASE`). -/
def findIdxCI (pat s : List Char) : Option Nat := findIdxBy leadsWithCI pat s

/-- Python `s.replace(pat, repl)` (all occurrences, left to right,
non-overlapping).  Fuel-recursive; `pyReplace` supplies enough fuel. -/
def replaceAllL (fuel : Nat) (pat repl : List Char) (s : List Char) : List Char :=
  match fuel with
  | 0 => s
  | fuel + 1 =>
    if pat.isEmpty then s
    else
      match s with
      | [] => []
      | c :: rest =>
        if leadsWith pat (c :: rest) then
          repl ++ replaceAllL fuel pat repl ((c :: rest).drop pat.length)
        else
          c :: replaceAllL fuel pat repl rest

/-- Python `s.replace(pat, repl)`. -/
def pyReplace (s pat repl : String) : String :=
  ⟨replaceAllL s.data.length pat.data repl.data s.data⟩

/-- Python `s.replace(pat, repl, 1)` (at most one replacement). -/
def pyReplaceOnce (s pat repl : String) : String :=
  match findIdxCS pat.data s.data with
  | none => s
  | some i => ⟨s.data.take i ++ repl.data ++ s.data.drop (i + pat.data.length)⟩

/-- Number of non-overlapping occurrences of `pat` in `s`, scanning left
to right (the count a global regex substitution would make). -/
def countOccurL (fuel : Nat) (pat s : List Char) : Nat :=
  match fuel with
  | 0 => 0
  | fuel + 1 =>
    if pat.isEmpty then 0
    else
      match s with
      | [] => 0
      | c :: rest =>
        if leadsWith pat (c :: rest) then
          1 + countOccurL fuel pat ((c :: rest).drop pat.length)
        else
          countOccurL fuel pat rest

/-- Non-overlapping occurrence count on `String`s. -/
def countOccur (pat s : String) : Nat := countOccurL s.data.length pat.data s.data

/-! ## The tag-block scanners

Every structural regex of `parsing.py` / `building.py` has one of two
shapes, always with `re.DOTALL | re.IGNORECASE` and lazy quantifiers:

* `<TAG.*?>(.*?)</TAG>`  (used for `<python>`, `<style>`, `<hpy-head>`,
  `<hpy-body>`, `<html>`, `<title>` blocks), and
* `<TAG.*?</TAG>` without the `>` step (used by the `count=1` strip of
  a consumed `<title>` and by the page-fallback strips).

For these patterns leftmost-lazy matching is deterministic: the match
starts at the first occurrence of the opening literal for which a `>`
and then the closing literal can still be found; and if the first
candidate start fails, every later start fails too (a later start only
ever shrinks the search space of the inner steps).  The scanners below
therefore take the first candidate at every step. -/

/-- Leftmost match of `<tag.*?>(.*?)</tag>` (case-insensitive, DOTALL):
returns `(before-match, group 1, after-match)`. -/
def findTagBlockPieces (tag s : String) : Option (String × String × String) :=
  let d := s.data
  let openPat := ("<" ++ tag).data
  let closePat := ("</" ++ tag ++ ">").data
  match findIdxCI openPat d with
  | none => none
  | some i =>
    let afterOpen := d.drop (i + openPat.length)
    match findIdxCS ['>'] afterOpen with
    | none => none
    | some g =>
      let inner0 := afterOpen.drop (g + 1)
      match findIdxCI closePat inner0 with
      | none => none
      | some j =>
        some (⟨d.take i⟩, ⟨inner0.take j⟩, ⟨inner0.drop (j + closePat.length)⟩)

/-- Group 1 of the leftmost `<tag.*?>(.*?)</tag>` match (`re.search`). -/
def tagBlockInner (tag s : String) : Option String :=
  match findTagBlockPieces tag s with
  | none => none
  | some (_, inner, _) => some inner

/-- All group-1 captures of `<tag.*?>(.*?)</tag>` (`re.findall`),
scanning non-overlapping matches left to right. -/
def tagInnerBlocksAux (fuel : Nat) (tag s : String) : List String :=
  match fuel with
  | 0 => []
  | fuel + 1 =>
    match findTagBlockPieces tag s with
    | none => []
    | some (_, inner, post) => inner :: tagInnerBlocksAux fuel tag post

/-- `re.findall(r"<tag.*?>(.*?)</tag>", s)`. -/
def tagInnerBlocks (tag s : String) : List String :=
  tagInnerBlocksAux s.data.length tag s

/-- `re.sub(r"<tag.*?>(.*?)</tag>", "", s, count=1)`. -/
def removeFirstTagBlock (tag s : String) : String :=
  match findTagBlockPieces tag s with
  | none => s
  | some (pre, _, post) => pre ++ post

/-- Leftmost match of the `>`-less shape `OPEN.*?CLOSE`: returns
`(before-match, after-match)`. -/
def findSpanPieces (openPat closePat s : String) : Option (String × String) :=
  let d := s.data
  match findIdxCI openPat.data d with
  | none => none
  | some i =>
    let rest := d.drop (i + openPat.data.length)
    match findIdxCI closePat.data rest with
    | none => none
    | some j =>
      some (⟨d.take i⟩, ⟨rest.drop (j + closePat.data.length)⟩)

/-- `re.sub(OPEN + ".*?" + CLOSE, "", s, count=1)`. -/
def removeFirstSpan (openPat closePat s : String) : String :=
  match findSpanPieces openPat closePat s with
  | none => s
  | some (pre, post) => pre ++ post

/-- `re.sub(OPEN + ".*?" + CLOSE, "", s)` (all matches). -/
def removeAllSpansAux (fuel : Nat) (openPat closePat s : String) : String :=
  match fuel with
  | 0 => s
  | fuel + 1 =>
    match findSpanPieces openPat closePat s with
    | none => s
    | some (pre, post) => pre ++ removeAllSpansAux fuel openPat closePat post

/-- `re.sub(OPEN + ".*?" + CLOSE, "", s)`. -/
def removeAllSpans (openPat closePat s : String) : String :=
  removeAllSpansAux s.data.length openPat closePat s

/-! ## The attribute-level scanners of `parsing.py` / `building.py` -/

/-- Drop leading whitespace (the `\s*` steps of the regexes). -/
def skipWs : List Char → List Char
  | [] => []
  | c :: rest => if c.isWhitespace then skipWs rest else c :: rest

/-- Read characters up to (and consuming) the next occurrence of `q`;
returns `(value, rest)` or `none` if `q` never occurs. -/
def readUntilChar (q : Char) : List Char → Option (List Char × List Char)
  | [] => none
  | c :: rest =>
    if c == q then some ([], rest)
    else
      match readUntilChar q rest with
      | some (v, r) => some (c :: v, r)
      | none => none

/-- Rest of the list after the first `'>'`, if any (the final `[^>]*?>`
step of `PYTHON_SRC_REGEX`). -/
def dropThroughGt : List Char → Option (List Char)
  | [] => none
  | c :: rest => if c == '>' then some rest else dropThroughGt rest

/-- Try the `src\s*=\s*("([^"]+)"|\x27([^\x27]+)\x27)` part of
`PYTHON_SRC_REGEX` exactly at the head of `l`: on success returns the
(nonempty) quoted value and the rest after the closing quote. -/
def trySrcAt (l : List Char) : Option (List Char × List Char) :=
  if leadsWithCI "src".data l then
    match skipWs (l.drop 3) with
    | '=' :: l2 =>
      match skipWs l2 with
      | c :: l4 =>
        if c == '"' || c == '\x27' then
          match readUntilChar c l4 with
          | some (v, r) => if v.isEmpty then none else some (v, r)
          | none => none
        else none
      | [] => none
    | _ => none
  else none

/-- The `[^>]*?src\s*=\s*(...)` scan inside a `<python ...>` tag: look
for a `src=` attribute left to right, never crossing a `>`. -/
def findSrcInTag (fuel : Nat) (l : List Char) : Option (List Char × List Char) :=
  match fuel with
  | 0 => none
  | fuel + 1 =>
    match trySrcAt l with
    | some r => some r
    | none =>
      match l with
      | [] => none
      | c :: rest => if c == '>' then none else findSrcInTag fuel rest

/-- Leftmost match of `PYTHON_SRC_REGEX`
(`<python\s+[^>]*?src\s*=\s*("..."|\x27...\x27)[^>]*?>`): returns
`(before-match, quoted value, after-match)`. -/
def findPythonSrcAux (fuel i : Nat) (s : List Char) :
    Option (Nat × List Char × List Char) :=
  match fuel with
  | 0 => none
  | fuel + 1 =>
    match s with
    | [] => none
    | _ :: rest =>
      if leadsWithCI "<python".data s then
        match s.drop 7 with
        | w :: l0 =>
          if w.isWhitespace then
            match findSrcInTag l0.length l0 with
            | some (v, afterVal) =>
              match dropThroughGt afterVal with
              | some post => some (i, v, post)
              | none => findPythonSrcAux fuel (i + 1) rest
            | none => findPythonSrcAux fuel (i + 1) rest
          else findPythonSrcAux fuel (i + 1) rest
        | [] => none
      else findPythonSrcAux fuel (i + 1) rest

/-- `PYTHON_SRC_REGEX.search(s)`: `(before-match, value, after-match)`. -/
def findPythonSrcTag (s : String) : Option (String × String × String) :=
  match findPythonSrcAux s.data.length 0 s.data with
  | none => none
  | some (i, v, post) => some (⟨s.data.take i⟩, ⟨v⟩, ⟨post⟩)

/-- `PYTHON_SRC_REGEX.sub("", s, count=1)` (parsing.py page fallback). -/
def removeFirstPythonSrcTag (s : String) : String :=
  match findPythonSrcTag s with
  | none => s
  | some (pre, _, post) => pre ++ post

/-! ## building.py title helpers -/

/-- Model of `_extract_title_from_head_content`
(`re.search(r"<title.*?>(.*?)</title>", head, re.IGNORECASE | re.DOTALL)`,
returning the stripped group or `None`). -/
def extract_title_from_head_content (head_content : String) : Option String :=
  match tagBlockInner "title" head_content with
  | none => none
  | some inner => some inner.pyStrip

/-- Python truthiness of an `Optional[str]` (`None` and `""` falsy). -/
def truthy : Option String → Bool
  | none => false
  | some s => !(s == "")

/-- Python `a or b` for `a : Optional[str]`, `b : str`. -/
def orElseTruthy : Option String → String → String
  | none, b => b
  | some s, b => if s == "" then b else s

/-- Python `a or ""` for `a : Optional[str]`. -/
def orEmpty : Option String → String
  | none => ""
  | some s => s

/-- Model of `_replace_title_in_app_shell`: replace (count=1) the match
of `(<head[^>]*>.*?<title)(?:[^>]*>)(?:.*?)(</title>)` by
`\1>{new_title}\2`; if that pattern is absent, insert a fresh title tag
before the first `</head>`; otherwise return the shell unchanged.
`new_title` falsy returns the shell unchanged. -/
def replace_title_in_app_shell (app_shell_html : String) (new_title : Option String) : String :=
  if !(truthy new_title) then app_shell_html
  else
    let t := orEmpty new_title
    let d := app_shell_html.data
    let replaced : Option String :=
      match findIdxCI "<head".data d with
      | none => none
      | some i =>
        let afterHead := d.drop (i + 5)
        match findIdxCS ['>'] afterHead with
        | none => none
        | some g =>
          let inHead := afterHead.drop (g + 1)
          match findIdxCI "<title".data inHead with
          | none => none
          | some ti =>
            let afterTitle := inHead.drop (ti + 6)
            match findIdxCS ['>'] afterTitle with
            | none => none
            | some g2 =>
              let content0 := afterTitle.drop (g2 + 1)
              match findIdxCI "</title>".data content0 with
              | none => none
              | some j =>
                -- group 1 runs from the start of `<head` through `<title`
                let keep := d.take (i + 5 + g + 1 + ti + 6)
                some ⟨keep ++ (">" ++ t ++ "</title>").data ++
                      content0.drop (j + 8)⟩
    match replaced with
    | some r => r
    | none =>
      match findIdxCI "</head>".data d with
      | none => app_shell_html
      | some k =>
        let matched : String := ⟨(d.drop k).take 7⟩
        pyReplaceOnce app_shell_html matched
          ("    <title>" ++ t ++ "</title>\n" ++ matched)

/-! ## building.py brython-debug rewrite -/

/-- Check that `seg` (the `[^}]*` span inside the braces) satisfies
`[^}]*\x27debug\x27\s*:\s*\d+\s*[^}]*`: some occurrence of the literal
`\x27debug\x27` followed by `:` and at least one digit. -/
def segHasDebug (fuel : Nat) (seg : List Char) : Bool :=
  match fuel with
  | 0 => false
  | fuel + 1 =>
    match seg with
    | [] => false
    | _ :: rest =>
      if leadsWithCI "\x27debug\x27".data seg then
        match skipWs (seg.drop 7) with
        | ':' :: l2 =>
          match skipWs l2 with
          | c :: _ => if c.isDigit then true else segHasDebug fuel rest
          | [] => segHasDebug fuel rest
        | _ => segHasDebug fuel rest
      else segHasDebug fuel rest

/-- Try to match
`brython\s*\(\s*\{[^}]*\x27debug\x27\s*:\s*\d+\s*[^}]*\}\s*\)` exactly
at the head of `l`; on success returns the rest after the match. -/
def tryBrythonAt (l : List Char) : Option (List Char) :=
  if leadsWithCI "brython".data l then
    match skipWs (l.drop 7) with
    | '(' :: l1 =>
      match skipWs l1 with
      | '{' :: l2 =>
        match readUntilChar '}' l2 with
        | some (seg, afterBrace) =>
          if segHasDebug seg.length seg then
            match skipWs afterBrace with
            | ')' :: l3 => some l3
            | _ => none
          else none
        | none => none
      | _ => none
    | _ => none
  else none

/-- Model of the `re.sub` on line 154 of building.py: every match of the
brython-debug pattern is replaced by `brython({\x27debug\x27: LEVEL})`. -/
def rewriteBrythonDebugL (fuel : Nat) (level : Nat) (s : List Char) : List Char :=
  match fuel with
  | 0 => s
  | fuel + 1 =>
    match s with
    | [] => []
    | c :: rest =>
      match tryBrythonAt s with
      | some after =>
        ("brython(\x7b\x27debug\x27: " ++ toString level ++ "\x7d)").data ++
          rewriteBrythonDebugL fuel level after
      | none => c :: rewriteBrythonDebugL fuel level rest

/-- String form of the brython-debug rewrite. -/
def rewriteBrythonDebug (s : String) (level : Nat) : String :=
  ⟨rewriteBrythonDebugL s.data.length level s.data⟩

/-! ## Constants of hpy_core (config.py / building.py) -/

/-- config.py: `LAYOUT_FILENAME = "_layout.hpy"`. -/
def LAYOUT_FILENAME : String := "_layout.hpy"

/-- config.py: `LAYOUT_PLACEHOLDER = "<!-- HPY_PAGE_CONTENT -->"`. -/
def LAYOUT_PLACEHOLDER : String := "<!-- HPY_PAGE_CONTENT -->"

/-- config.py: `BRYTHON_VERSION = "3.11.3"`. -/
def BRYTHON_VERSION : String := "3.11.3"

/-- Modelled from the spec: the app-shell head-injection placeholder
token.  `APP_SHELL_HEAD_PLACEHOLDER` is imported from config.py by
building.py, but the config.py in the sources predates the app-shell
feature and does not define it; the spec only requires a distinct
placeholder token for head injection. -/
def APP_SHELL_HEAD_PLACEHOLDER : String := "<!-- HPY_HEAD_CONTENT -->"

/-- Modelled from the spec: the app-shell body-injection placeholder
token (see `APP_SHELL_HEAD_PLACEHOLDER`). -/
def APP_SHELL_BODY_PLACEHOLDER : String := "<!-- HPY_BODY_CONTENT -->"

/-- building.py `HELPER_FUNCTION_CODE` (the dedented literal). -/
def HELPER_FUNCTION_CODE : String :=
  "\n# --- HPY Tool Helper Functions (Injected) ---\nfrom browser import document\nimport sys as _hpy_sys\ndef byid(element_id):\n    try: return document[element_id]\n    except KeyError: return None\ndef qs(selector): return document.select_one(selector)\ndef qsa(selector): return document.select(selector)\n# --- End Helper Functions ---\n"

/-- building.py `LIVE_RELOAD_SCRIPT` (the dedented f-string with
`hpy_tool_version = "0.7.0"` substituted). -/
def LIVE_RELOAD_SCRIPT : String :=
  "\n<script>\n    // HPY Tool Live Reload v0.7.0\n    (function() \x7b\n        const RELOAD_FILE = \x27/.hpy_reload\x27; \n        const POLLING_INTERVAL = 1500; \n        let currentLastModified = null; \n        let initialFetchAttempted = false;\n        let consecutiveErrors = 0;\n        const MAX_ERRORS_BEFORE_WARN_SILENCE = 3;\n\n        async function pollForChanges() \x7b\n            if (!document.hidden) \x7b \n                try \x7b\n                    const response = await fetch(RELOAD_FILE, \x7b method: \x27HEAD\x27, cache: \x27no-store\x27 \x7d);\n                    if (response.ok) \x7b\n                        const serverLastModified = response.headers.get(\x27Last-Modified\x27);\n                        consecutiveErrors = 0;\n                        if (serverLastModified) \x7b \n                            if (initialFetchAttempted && currentLastModified && serverLastModified !== currentLastModified) \x7b\n                                console.log(\x27HPY Live Reload: Changes detected (timestamp changed), reloading page...\x27);\n                                window.location.reload();\n                                return; \n                            \x7d\n                            currentLastModified = serverLastModified; \n                        \x7d\n                        if (!initialFetchAttempted) \x7b\n                            initialFetchAttempted = true;\n                        \x7d\n                    \x7d else if (response.status === 404) \x7b\n                        if (initialFetchAttempted && consecutiveErrors < MAX_ERRORS_BEFORE_WARN_SILENCE) \x7b\n                            // console.warn(\x27HPY Live Reload: Trigger file not found.\x27);\n                        \x7d\n                    \x7d else \x7b\n                        if (consecutiveErrors < MAX_ERRORS_BEFORE_WARN_SILENCE) \x7b\n                            // console.warn(\x60HPY Live Reload: HEAD request status: $\x7bresponse.status\x7d\x60);\n                        \x7d\n                        consecutiveErrors++;\n                    \x7d\n                \x7d catch (error) \x7b\n                    if (consecutiveErrors < MAX_ERRORS_BEFORE_WARN_SILENCE) \x7b\n                        // console.warn(\x27HPY Live Reload: Error polling for reload trigger:\x27, error);\n                    \x7d\n                    consecutiveErrors++;\n                \x7d\n            \x7d\n            setTimeout(pollForChanges, POLLING_INTERVAL);\n        \x7d\n        fetch(RELOAD_FILE, \x7b method: \x27HEAD\x27, cache: \x27no-store\x27 \x7d)\n            .then(response => \x7b\n                if (response.ok) \x7b\n                    currentLastModified = response.headers.get(\x27Last-Modified\x27);\n                \x7d\n            \x7d)\n            .catch(e => \x7b /* Allow initial fetch to fail silently */ \x7d)\n            .finally(() => \x7b\n                initialFetchAttempted = true; \n                setTimeout(pollForChanges, POLLING_INTERVAL); \n            \x7d);\n    \x7d)();\n</script>\n"


/-! ## Small Python library helpers used by the sources -/

/-- Leading whitespace of a line. -/
def leadingWs : List Char → List Char
  | [] => []
  | c :: rest => if c.isWhitespace then c :: leadingWs rest else []

/-- Longest common prefix of two character lists. -/
def lcpL : List Char → List Char → List Char
  | [], _ => []
  | _, [] => []
  | a :: as, b :: bs => if a == b then a :: lcpL as bs else []

/-- Model of `textwrap.dedent`: remove the longest common leading
whitespace of all lines that contain non-whitespace characters. -/
def dedentStr (s : String) : String :=
  let lines := splitOnCharStr '\n' s
  let contentIndents := (lines.filter (fun l => !(l.pyStrip == ""))).map
    (fun l => leadingWs l.data)
  let margin : List Char :=
    match contentIndents with
    | [] => []
    | m :: rest => rest.foldl lcpL m
  let strip1 := fun (l : String) =>
    if leadsWith margin l.data then (⟨l.data.drop margin.length⟩ : String) else l
  String.intercalate "\n" (lines.map strip1)

/-- One `..`/component step of `os.path.normpath` (POSIX rules for the
relative `<python src=...>` values the parser normalises). -/
def normpathStep (stack : List String) (c : String) : List String :=
  if c == ".." then
    match stack with
    | [] => [".."]
    | top :: rest => if top == ".." then c :: top :: rest else rest
  else c :: stack

/-- Model of `os.path.normpath` on relative POSIX paths: drop empty and
`.` components and resolve `..` against preceding components. -/
def normpathStr (p : String) : String :=
  let comps := (splitOnCharStr '/' p).filter (fun c => !(c == "") && !(c == "."))
  let stack := comps.foldl normpathStep []
  let out := String.intercalate "/" stack.reverse
  if out == "" then "." else out

/-- Modelled from the spec: `CSS_HREF_REGEX.sub("", fragment)`.
`CSS_HREF_REGEX` is imported by building.py from parsing.py, but the
parsing.py in the sources predates the external-stylesheet feature and
does not define it; per the spec it matches the external-stylesheet
reference markers (`<link ...>` elements), which building.py strips
from head fragments before injection. -/
def CSS_HREF_sub (s : String) : String := removeAllSpans "<link" ">" s

/-! ## parsing.py: `parse_hpy_file`

The model takes the file CONTENT as argument; the existence, extension
and readability checks of lines 45-51 concern the path and are handled
by `compile_directory`, which only calls the parser for files it found
on disk.  Failure (`ValueError`) is `Except.error`. -/

structure ParseResult where
  html : String
  style : String
  python : Option String
  script_src : Option String
  head_content : Option String
  deriving Repr, DecidableEq

/-- Script Source Extraction of `parse_hpy_file` (parsing.py lines
67-77).  The regex only matches a nonempty quoted value, so the
empty-value warning branch of lines 76-77 is unreachable. -/
def parsedScriptSrc (content : String) : Option String :=
  match findPythonSrcTag content with
  | some (_, v, _) => some (normpathStr v.pyStrip)
  | none => none

/-- Inline Python Extraction of `parse_hpy_file` (parsing.py lines
79-86): skipped entirely when a script source was found. -/
def parsedPython (content : String) : Option String :=
  if (parsedScriptSrc content).isSome then none
  else
    let ms := tagInnerBlocks "python" content
    if ms.isEmpty then none
    else
      let joined := (String.intercalate "\n\n" (ms.map String.pyStrip)).pyStrip
      if joined == "" then none else some joined

/-- Style Extraction of `parse_hpy_file` (parsing.py lines 93-94). -/
def parsedStyle (content : String) : String :=
  (String.intercalate "\n\n" ((tagInnerBlocks "style" content).map String.pyStrip)).pyStrip

/-- Page branch of `parse_hpy_file`: the content of an optional
`<hpy-head>` section (parsing.py lines 134-137). -/
def pageHeadContent (content : String) : Option String :=
  match findTagBlockPieces "hpy-head" content with
  | some (_, inner, _) => some inner.pyStrip
  | none => none

/-- Page branch of `parse_hpy_file`: the content with the first
`<hpy-head>` block excised (parsing.py lines 138-141). -/
def pageContentForHtmlExtraction (content : String) : String :=
  match findTagBlockPieces "hpy-head" content with
  | some (pre, _, post) => pre ++ post
  | none => content

/-- Page-fallback body of `parse_hpy_file` when no `<html>` element is
found (parsing.py lines 146-171): strip the known special blocks from
the ORIGINAL content and use the remainder. -/
def pageFallbackHtml (content : String) : String :=
  let temp1 :=
    if (parsedScriptSrc content).isSome then removeFirstPythonSrcTag content
    else content
  let temp2 := removeAllSpans "<python" "</python>" temp1
  let temp3 := removeAllSpans "<style" "</style>" temp2
  let temp4 :=
    match findTagBlockPieces "hpy-head" content with
    | some _ => removeFirstTagBlock "hpy-head" temp3
    | none => temp3
  temp4.pyStrip

/-- Model of `parse_hpy_file` (parsing.py lines 33-184). -/
def parse_hpy_file (content : String) (is_layout : Bool) : Except String ParseResult :=
  if is_layout then
    match tagBlockInner "hpy-head" content, tagBlockInner "hpy-body" content with
    | some headFrag, some bodyFrag =>
      -- <hpy-head>/<hpy-body> layout (lines 102-120)
      if !(occursB LAYOUT_PLACEHOLDER bodyFrag.pyStrip) then
        .error ("Layout file (using <hpy-body>) must contain placeholder " ++
          LAYOUT_PLACEHOLDER ++ ".")
      else
        .ok ⟨bodyFrag.pyStrip, parsedStyle content, parsedPython content,
          parsedScriptSrc content, some headFrag.pyStrip⟩
    | _, _ =>
      -- legacy full-<html> layout (lines 122-130)
      match tagBlockInner "html" content with
      | none =>
        .error "Layout file must either use <hpy-head>/<hpy-body> tags or contain a full <html>...</html> section."
      | some inner =>
        if !(occursB LAYOUT_PLACEHOLDER inner.pyStrip) then
          .error ("Layout file (using <html>) must contain placeholder " ++
            LAYOUT_PLACEHOLDER ++ ".")
        else
          .ok ⟨inner.pyStrip, parsedStyle content, parsedPython content,
            parsedScriptSrc content, none⟩
  else
    -- regular page (lines 132-174)
    match tagBlockInner "html" (pageContentForHtmlExtraction content) with
    | some inner =>
      .ok ⟨inner.pyStrip, parsedStyle content, parsedPython content,
        parsedScriptSrc content, pageHeadContent content⟩
    | none =>
      .ok ⟨pageFallbackHtml content, parsedStyle content, parsedPython content,
        parsedScriptSrc content, pageHeadContent content⟩

/-! ## building.py: `build_output_html` and `compile_hpy_file`

The models return the final HTML text; the directory-creation and
file-write side effects of the source (which only raise `OSError` /
`IOError` on filesystem failure) are outside the model. -/

/-- building.py line 134: the live-reload block is injected only in
development-watch mode and never in a production build. -/
def live_reload_injection (is_dev_watch_mode is_production_build : Bool) : String :=
  if is_dev_watch_mode && !is_production_build then LIVE_RELOAD_SCRIPT else ""

/-- building.py line 135: brython debug level 0 in production, else 1. -/
def brython_debug_level (is_production_build : Bool) : Nat :=
  if is_production_build then 0 else 1

/-- The `f"<link rel=\"stylesheet\" href=\"{href}\">"` tags joined with
`"\n    "` (building.py lines 141-142). -/
def final_css_links_str (final_css_links_for_html : List String) : String :=
  let css_link_tags := final_css_links_for_html.map
    (fun href => "<link rel=\"stylesheet\" href=\"" ++ href ++ "\">")
  if css_link_tags.isEmpty then "" else String.intercalate "\n    " css_link_tags

/-- The bootstrap call text `brython({\x27debug\x27: LEVEL})`: the
f-string of building.py line 184 and the substitution text of line
154. -/
def brythonCall (debug_level : Nat) : String :=
  "brython(\x7b\x27debug\x27: " ++ toString debug_level ++ "\x7d)"

/-- The part of the synthesized skeleton of building.py lines 170-190
before the bootstrap call. -/
def noShellBeforeBrython (title_to_use css_links_str combined_style_content
    page_head_fragment : String) : String :=
  "<!DOCTYPE html>\n<html>\n<head>\n    <meta charset=\"UTF-8\">\n    <meta name=\"viewport\" content=\"width=device-width, initial-scale=1.0\">\n    <title>" ++
  title_to_use ++
  "</title>\n    <script src=\"https://cdn.jsdelivr.net/npm/brython@" ++
  BRYTHON_VERSION ++
  "/brython.min.js\"></script>\n    <script src=\"https://cdn.jsdelivr.net/npm/brython@" ++
  BRYTHON_VERSION ++
  "/brython_stdlib.js\"></script>\n    " ++
  css_links_str ++
  "\n    <style id=\x27_hpy_combined_styles_fallback\x27>\n" ++
  combined_style_content.pyStrip ++
  "\n    </style>\n    " ++
  page_head_fragment.pyStrip ++
  "\n</head>\n<body onload=\""

/-- The synthesized full-document skeleton of building.py lines 170-190
(the `else` branch taken when no app-shell template is present). -/
def noShellHtml (title_to_use css_links_str combined_style_content page_head_fragment
    page_body_fragment layout_tag page_tag live : String) (debug_level : Nat) : String :=
  noShellBeforeBrython title_to_use css_links_str combined_style_content
    page_head_fragment ++
  brythonCall debug_level ++
  ("\">\n" ++
   page_body_fragment ++ "\n" ++
   layout_tag ++ "\n" ++
   page_tag ++ "\n") ++
  live ++
  "\n</body>\n</html>"

/-- The script-injection step of building.py lines 160-166: the script
tags and live-reload block are inserted before the first
(case-insensitive) `</body>` by substring replacement, or appended
when the shell has no body-end marker. -/
def inject_scripts_before_body_end (temp3 scripts_to_inject : String) : String :=
  match findIdxCI "</body>".data temp3.data with
  | some k =>
    pyReplaceOnce temp3 ⟨(temp3.data.drop k).take 7⟩
      (scripts_to_inject ++ ⟨(temp3.data.drop k).take 7⟩)
  | none => temp3 ++ scripts_to_inject

/-- The app-shell branch of building.py lines 144-166: title handling,
brython-debug rewrite, placeholder replacement and script injection
before `</body>`. -/
def appShellHtml (shell page_head_fragment page_body_fragment css_links_str
    layout_tag page_tag live : String) (debug_level : Nat) : String :=
  let final_page_title := extract_title_from_head_content page_head_fragment
  let current_app_shell_title :=
    orElseTruthy (extract_title_from_head_content shell) "HPY Application"
  let title_to_use := orElseTruthy final_page_title current_app_shell_title
  let temp0 := replace_title_in_app_shell shell (some title_to_use)
  let page_head_fragment2 :=
    if truthy final_page_title then removeFirstSpan "<title" "</title>" page_head_fragment
    else page_head_fragment
  let temp1 := rewriteBrythonDebug temp0 debug_level
  let head_injection_content := (css_links_str ++ "\n    " ++ page_head_fragment2.pyStrip).pyStrip
  let temp2 := pyReplace temp1 APP_SHELL_HEAD_PLACEHOLDER head_injection_content
  let temp3 := pyReplace temp2 APP_SHELL_BODY_PLACEHOLDER page_body_fragment
  inject_scripts_before_body_end temp3
    ("\n" ++ layout_tag ++ "\n" ++ page_tag ++ "\n" ++ live ++ "\n")

/-- Model of `build_output_html` (building.py lines 118-198).  The
`app_shell_template` argument is `Optional[str]` and tested for
truthiness on line 144, so an empty shell string also selects the
no-shell branch. -/
def build_output_html
    (app_shell_template : Option String)
    (page_head_fragment page_body_fragment combined_style_content : String)
    (final_css_links_for_html : List String)
    (layout_python_script_tag page_python_script_tag : Option String)
    (output_file_stem : String)
    (is_dev_watch_mode is_production_build : Bool) : String :=
  let live := live_reload_injection is_dev_watch_mode is_production_build
  let lvl := brython_debug_level is_production_build
  let cssStr := final_css_links_str final_css_links_for_html
  if truthy app_shell_template then
    appShellHtml (orEmpty app_shell_template) page_head_fragment page_body_fragment
      cssStr (orEmpty layout_python_script_tag) (orEmpty page_python_script_tag)
      live lvl
  else
    let final_page_title := extract_title_from_head_content page_head_fragment
    let title_to_use :=
      orElseTruthy final_page_title ("HPY Application (" ++ output_file_stem ++ ")")
    noShellHtml title_to_use cssStr combined_style_content page_head_fragment
      page_body_fragment (orEmpty layout_python_script_tag)
      (orEmpty page_python_script_tag) live lvl

/-- The `<script type="text/python" ...>` tag built for inline layout
python (building.py lines 237-240). -/
def layoutPythonScriptTag (layout_python_inline : Option String) : String :=
  if truthy layout_python_inline then
    "<script type=\"text/python\" id=\"_hpy_layout_script\">\n# --- Layout Python ---\n" ++
    (HELPER_FUNCTION_CODE ++ dedentStr (orEmpty layout_python_inline)) ++
    "\n# --- End Layout Python ---\n</script>"
  else ""

/-- The page script tag (building.py lines 242-252): an external
reference wins outright; otherwise inline page python is embedded,
prefixed with the helper block when no layout script already carries
it. -/
def pagePythonScriptTag (external_script_src : Option String)
    (page_python_inline : Option String) (needs_global_helpers : Bool) : String :=
  if truthy external_script_src then
    -- `.replace(os.sep, "/")` is the identity on POSIX relative paths
    "<script type=\"text/python\" src=\"" ++ orEmpty external_script_src ++
    "\" id=\"_hpy_page_script_external\"></script>"
  else if truthy page_python_inline then
    let code0 := dedentStr (orEmpty page_python_inline)
    let code_to_embed :=
      if needs_global_helpers then HELPER_FUNCTION_CODE ++ code0 else code0
    "<script type=\"text/python\" id=\"_hpy_page_script_inline\">\n# --- Page Python ---\n" ++
    code_to_embed ++ "\n# --- End Page Python ---\n</script>"
  else ""

/-- Model of `compile_hpy_file` (building.py lines 200-290), returning
the final HTML text.  `Except.error` models the `ValueError` raised
when a layout is present but its body lacks the placeholder. -/
def compile_hpy_file
    (input_file_name : String)
    (app_shell_template : Option String)
    (layout_parsed_data : Option ParseResult)
    (page_parsed_data : ParseResult)
    (external_script_src : Option String)
    (final_css_links_for_html : List String)
    (output_file_stem : String)
    (is_dev_watch_mode is_production_build : Bool) : Except String String :=
  let page_html_body_fragment := page_parsed_data.html
  -- line 216: `.get("head_content", "") or ""`
  let page_head_direct_content0 := orEmpty page_parsed_data.head_content
  let page_style_content := page_parsed_data.style
  -- line 218: external_script_src is truthiness-tested
  let page_python_inline :=
    if truthy external_script_src then none else page_parsed_data.python
  -- lines 224-227 (a stored `None` head_content survives the `.get`)
  let layout_head_content : Option String :=
    match layout_parsed_data with
    | some l => l.head_content
    | none => some ""
  let layout_body_template := match layout_parsed_data with
    | some l => l.html
    | none => ""
  let layout_style_content := match layout_parsed_data with
    | some l => l.style
    | none => ""
  let layout_python_inline : Option String := layout_parsed_data.bind (·.python)
  -- lines 229-233
  let final_combined_styles :=
    ((if !(layout_style_content == "") then
        "/* Layout Styles: " ++ LAYOUT_FILENAME ++ " */\n" ++
        layout_style_content.pyStrip ++ "\n\n"
      else "") ++
     (if !(page_style_content == "") then
        "/* Page Styles: " ++ input_file_name ++ " */\n" ++
        page_style_content.pyStrip ++ "\n"
      else "")).pyStrip
  -- lines 235-252
  let final_layout_python_script_tag := layoutPythonScriptTag layout_python_inline
  let needs_global_helpers := !(truthy layout_python_inline)
  let final_page_python_script_tag :=
    pagePythonScriptTag external_script_src page_python_inline needs_global_helpers
  -- lines 254-257: strip stylesheet-link markers from head fragments
  let layout_head_content2 : Option String :=
    if truthy layout_head_content then some (CSS_HREF_sub (orEmpty layout_head_content))
    else layout_head_content
  let page_head_direct_content :=
    if !(page_head_direct_content0 == "") then CSS_HREF_sub page_head_direct_content0
    else page_head_direct_content0
  -- lines 259-267
  let assembled : Except String (String × String) :=
    match layout_parsed_data with
    | some _ =>
      if !(occursB LAYOUT_PLACEHOLDER layout_body_template) then
        .error ("Layout file " ++ LAYOUT_FILENAME ++ " is missing placeholder " ++
          LAYOUT_PLACEHOLDER ++ ".")
      else
        .ok ((orEmpty layout_head_content2).pyStrip ++ "\n" ++ page_head_direct_content.pyStrip,
             pyReplace layout_body_template LAYOUT_PLACEHOLDER page_html_body_fragment)
    | none =>
      .ok (page_head_direct_content.pyStrip, page_html_body_fragment)
  match assembled with
  | .error e => .error e
  | .ok (final_head_content_for_injection0, final_body_content_for_injection) =>
    -- lines 269-272
    let final_head_content_for_injection :=
      if truthy app_shell_template && !(final_combined_styles == "") then
        final_head_content_for_injection0 ++
        "\n<style id=\x27_hpy_combined_styles_page_injected\x27>\n" ++
        final_combined_styles ++ "\n</style>"
      else if !(truthy app_shell_template) && final_head_content_for_injection0 == "" &&
          !(final_combined_styles == "") then
        "<style id=\x27_hpy_combined_styles_fallback\x27>\n" ++ final_combined_styles ++
        "\n</style>"
      else final_head_content_for_injection0
    -- lines 274-285
    .ok (build_output_html app_shell_template
      final_head_content_for_injection.pyStrip
      final_body_content_for_injection.pyStrip
      final_combined_styles
      final_css_links_for_html
      (some final_layout_python_script_tag)
      (some final_page_python_script_tag)
      output_file_stem
      is_dev_watch_mode is_production_build)

/-! ## building.py: `compile_directory`

The directory walk is modelled over an abstract filesystem.  Paths are
`pathlib`-resolved absolute paths represented relative to the resolved
input directory: `up` counts `..` levels escaping it (`up = 0` means
the path lies inside the input dir, which is exactly the
`relative_to(input_dir)` check). -/

structure FsPath where
  up : Nat
  segs : List String
  deriving DecidableEq, Repr

/-- Does the segment list `pre` lead the segment list `l`
(`Path.is_relative_to` on directories)? -/
def segsLead : List String → List String → Bool
  | [], _ => true
  | _ :: _, [] => false
  | a :: as, b :: bs => a == b && segsLead as bs

/-- One component step of `Path.resolve` (assuming no symlinks). -/
def resolveStep : FsPath → String → FsPath
  | p, c =>
    if c == "" || c == "." then p
    else if c == ".." then
      match p.segs with
      | [] => ⟨p.up + 1, []⟩
      | _ :: _ => ⟨p.up, p.segs.dropLast⟩
    else ⟨p.up, p.segs ++ [c]⟩

/-- `(base / rel).resolve()` for a directory `base` inside the input
dir and a relative POSIX path string `rel`. -/
def resolveRel (baseDir : List String) (rel : String) : FsPath :=
  (splitOnCharStr '/' rel).foldl resolveStep ⟨0, baseDir⟩

/-- Is `p` inside the configured static-assets dir (building.py guards
this with `source_static_dir and source_static_dir.exists()`; a `some`
value here stands for a configured, existing static dir)? -/
def inStaticDir (static_dir : Option (List String)) (p : FsPath) : Bool :=
  match static_dir with
  | none => false
  | some st => p.up == 0 && segsLead st p.segs

/-- `Path.stem`: the file name up to its last `.` (the whole name when
there is no dot). -/
def pathStem (name : String) : String :=
  match (splitOnCharStr '.' name).dropLast with
  | [] => name
  | parts => String.intercalate "." parts

/-- `Path.with_suffix(".py")` on a file name. -/
def withSuffixPy (name : String) : String := pathStem name ++ ".py"

/-- `os.path.relpath(target, start)` for two directories/files under
the output dir, as segment lists. -/
def relpathSegs : List String → List String → String
  | target, [] => String.intercalate "/" target
  | target, b :: bs =>
    match target with
    | [] => String.intercalate "/" ((b :: bs).map (fun _ => ".."))
    | t :: ts =>
      if t == b then relpathSegs ts bs
      else String.intercalate "/" (((b :: bs).map (fun _ => "..")) ++ t :: ts)

/-- A page source file found by the `**/*.hpy` glob: its directory
segments under the input dir, its file name, and its text. -/
structure PageFile where
  dir : List String
  name : String
  content : String
  deriving DecidableEq, Repr

/-- Model of the per-page script resolution of `compile_directory`
(building.py lines 393-422): an explicit `<python src=...>` reference
is resolved against the page directory and must exist, lie inside the
input dir and not lie inside the static dir (each violation raises);
otherwise the conventional same-stem `.py` file is used when present
(and not inside the static dir), else the page has no external
script. -/
def resolve_page_script (fs : List FsPath) (static_dir : Option (List String))
    (page : PageFile) (explicit : Option String) : Except String (Option FsPath) :=
  match explicit with
  | some src =>
    if !(resolveRel page.dir src ∈ fs) then
      .error ("FileNotFoundError: Script " ++ src ++ " in " ++ page.name ++ " not found")
    else if !((resolveRel page.dir src).up == 0) then
      .error ("ValueError: Script " ++ src ++ " in " ++ page.name ++ " outside input dir")
    else if inStaticDir static_dir (resolveRel page.dir src) then
      .error ("ValueError: Script " ++ src ++ " in " ++ page.name ++ " is in static dir")
    else .ok (some (resolveRel page.dir src))
  | none =>
    if (⟨0, page.dir ++ [withSuffixPy page.name]⟩ : FsPath) ∈ fs then
      if inStaticDir static_dir ⟨0, page.dir ++ [withSuffixPy page.name]⟩ then .ok none
      else .ok (some ⟨0, page.dir ++ [withSuffixPy page.name]⟩)
    else .ok none

/-- The `src` attribute value emitted into the page HTML for a resolved
script (building.py lines 409-411 and 422). -/
def external_src_for_html (page : PageFile) (explicit : Option String)
    (resolved : Option FsPath) : Option String :=
  match resolved with
  | none => none
  | some p =>
    match explicit with
    | some _ => some (relpathSegs p.segs page.dir)
    | none => some (withSuffixPy page.name)

/-- Output path (relative to the output dir) of a compiled page
(`output_dir / relative_hpy_path.with_suffix(".html")`). -/
def outputHtmlName (page : PageFile) : String :=
  String.intercalate "/" (page.dir ++ [pathStem page.name ++ ".html"])

/-- The abstract input to a directory build. -/
structure DirInput where
  input_dir_exists : Bool
  app_shell : Option String
  layout : Option String
  pages : List PageFile
  fs : List FsPath
  static_dir : Option (List String)

/-- The body of the per-page `try` block of `compile_directory`
(building.py lines 387-463): parse the page, resolve and validate its
script dependency, compile.  Any `Except.error` models an exception
reaching the per-page `except` handler.  (This parser version never
sets `css_links`, so the `.get("css_links", [])` loops of lines
424-455 run over empty lists and are omitted.) -/
def process_page (app_shell : Option String) (layout_parsed : Option ParseResult)
    (fs : List FsPath) (static_dir : Option (List String)) (page : PageFile)
    (is_dev_watch_mode is_production_build : Bool) : Except String String :=
  match parse_hpy_file page.content false with
  | .error e => .error e
  | .ok page_parsed_data =>
    match resolve_page_script fs static_dir page page_parsed_data.script_src with
    | .error e => .error e
    | .ok resolved =>
      match compile_hpy_file page.name app_shell layout_parsed page_parsed_data
          (external_src_for_html page page_parsed_data.script_src resolved) []
          (pathStem page.name) is_dev_watch_mode is_production_build with
      | .error e => .error e
      | .ok _ => .ok (outputHtmlName page)

/-- The warnings of building.py lines 340-341: an app shell missing a
placeholder marker is reported but the build continues. -/
def app_shell_missing_marker_warnings (shell : String) : List String :=
  (if !(occursB APP_SHELL_HEAD_PLACEHOLDER shell) then
    ["Warning: App Shell missing " ++ APP_SHELL_HEAD_PLACEHOLDER] else []) ++
  (if !(occursB APP_SHELL_BODY_PLACEHOLDER shell) then
    ["Warning: App Shell missing " ++ APP_SHELL_BODY_PLACEHOLDER] else [])

/-- One step of the page loop: a successful page appends its output, a
failed page is recorded in the failure count and the loop continues. -/
def compileDirStep (app_shell : Option String) (layout_parsed : Option ParseResult)
    (fs : List FsPath) (static_dir : Option (List String))
    (is_dev_watch_mode is_production_build : Bool)
    (acc : List String × Nat) (page : PageFile) : List String × Nat :=
  match process_page app_shell layout_parsed fs static_dir page
      is_dev_watch_mode is_production_build with
  | .ok out => (acc.1 ++ [out], acc.2)
  | .error _ => (acc.1, acc.2 + 1)

/-- The layout-parsing step of `compile_directory` (building.py lines
356-366): a failed layout parse is re-raised as a `RuntimeError` that
aborts the whole directory build. -/
def layout_parse_result (inp : DirInput) : Except String (Option ParseResult) :=
  match inp.layout with
  | none => .ok none
  | some lc =>
    match parse_hpy_file lc true with
    | .error e => .error ("RuntimeError: Layout file parsing failed: " ++ e)
    | .ok r => .ok (some r)

/-- Model of `compile_directory` (building.py lines 325-482), returning
the compiled output paths and the failure count
(`return compiled_files, len(failed_files)`).  It raises only for a
missing input dir (line 346) or a failed layout parse (lines 357-365);
every per-page exception is caught by the handler of lines 464-467. -/
def compile_directory (inp : DirInput)
    (is_dev_watch_mode is_production_build : Bool) :
    Except String (List String × Nat) :=
  if !inp.input_dir_exists then
    .error "FileNotFoundError: Input dir not found"
  else
    match layout_parse_result inp with
    | .error e => .error e
    | .ok lp =>
      .ok (inp.pages.foldl
        (compileDirStep inp.app_shell lp inp.fs inp.static_dir
          is_dev_watch_mode is_production_build) ([], 0))

/-! ## watching.py: the dependency maps of `HpyDirectoryEventHandler`

`hpy_dependency : Dict[Path, Optional[Path]]` and
`script_dependents : Dict[Path, Set[Path]]` are modelled as
association lists with distinct keys and duplicate-free member lists.
All reads of `hpy_dependency` in the source go through `.get`/`.pop`
with default `None`, which conflates a missing key with a key stored
as `None`; `depOf` models exactly that read. -/

/-- `dict.get(k)` on an association list. -/
def lookupA {K V : Type} [DecidableEq K] : List (K × V) → K → Option V
  | [], _ => none
  | (k0, v0) :: rest, k => if k = k0 then some v0 else lookupA rest k

/-- `dict[k] = v` on an association list. -/
def insertA {K V : Type} [DecidableEq K] : List (K × V) → K → V → List (K × V)
  | [], k, v => [(k, v)]
  | (k0, v0) :: rest, k, v =>
    if k = k0 then (k, v) :: rest else (k0, v0) :: insertA rest k v

/-- `del dict[k]` / `dict.pop(k, None)` on an association list. -/
def eraseA {K V : Type} [DecidableEq K] : List (K × V) → K → List (K × V)
  | [], _ => []
  | (k0, v0) :: rest, k => if k = k0 then rest else (k0, v0) :: eraseA rest k

/-- `set.add` (duplicate-free). -/
def setInsert {P : Type} [DecidableEq P] (x : P) (l : List P) : List P :=
  if x ∈ l then l else l ++ [x]

/-- `set.discard`. -/
def setDiscard {P : Type} [DecidableEq P] (x : P) : List P → List P
  | [] => []
  | y :: rest => if y = x then setDiscard x rest else y :: setDiscard x rest

/-- The three dependency-tracking containers of the directory watcher
(watching.py lines 86-90). -/
structure DepMaps (P S : Type) where
  page_files : List P
  hpy_dependency : List (P × Option S)
  script_dependents : List (S × List P)

/-- `self.hpy_dependency.get(p)` as the source consumes it (a missing
key and a key stored as `None` both read as no dependency). -/
def depOf {P S : Type} [DecidableEq P] (g : DepMaps P S) (p : P) : Option S :=
  match lookupA g.hpy_dependency p with
  | some d => d
  | none => none

/-- The link-removal step shared verbatim by `_update_dependencies`
(watching.py lines 175-179) and `_remove_dependencies` (lines
196-200): discard the page from its old dependency's dependent set and
delete the entry once its set becomes empty. -/
def removeLinkSd {P S : Type} [DecidableEq P] [DecidableEq S]
    (sd : List (S × List P)) (hpy : P) (old_dependency : Option S) :
    List (S × List P) :=
  match old_dependency with
  | some old =>
    match lookupA sd old with
    | some ps =>
      let ps2 := setDiscard hpy ps
      if ps2 = [] then eraseA sd old
      else insertA sd old ps2
    | none => sd
  | none => sd

/-- The link-addition step of `_update_dependencies` (watching.py lines
187-188): `self.script_dependents.setdefault(new_dependency,
set()).add(resolved_hpy)`. -/
def addLinkSd {P S : Type} [DecidableEq P] [DecidableEq S]
    (sd : List (S × List P)) (hpy : P) (new_dependency : Option S) :
    List (S × List P) :=
  match new_dependency with
  | some s =>
    match lookupA sd s with
    | some ps => insertA sd s (setInsert hpy ps)
    | none => sd ++ [(s, [hpy])]
  | none => sd

/-- Model of `_update_dependencies` (watching.py lines 169-189) for a
created/modified page.  `valid` is the `_is_path_valid` guard;
`new_dependency` is the result of `_get_source_py_dependency` (a
filesystem probe, passed in here). -/
def update_dependencies {P S : Type} [DecidableEq P] [DecidableEq S]
    (g : DepMaps P S) (hpy : P) (valid : Bool) (new_dependency : Option S) :
    DepMaps P S :=
  if !valid then g
  else
    -- 1. remove the old dependency link, dropping an emptied set
    let sd1 := removeLinkSd g.script_dependents hpy (depOf g hpy)
    -- 2. track the page
    let pages := setInsert hpy g.page_files
    -- 3. record and add the new dependency link
    let dep := insertA g.hpy_dependency hpy new_dependency
    ⟨pages, dep, addLinkSd sd1 hpy new_dependency⟩

/-- Model of `_remove_dependencies` (watching.py lines 192-201) for a
deleted page. -/
def remove_dependencies {P S : Type} [DecidableEq P] [DecidableEq S]
    (g : DepMaps P S) (hpy : P) : DepMaps P S :=
  let pages := setDiscard hpy g.page_files
  let dep := eraseA g.hpy_dependency hpy
  ⟨pages, dep, removeLinkSd g.script_dependents hpy (depOf g hpy)⟩

/-- Structural well-formedness of a reverse index: distinct keys and
duplicate-free dependent sets (a Python `Dict[Path, Set[Path]]`). -/
def SdWF {P S : Type} [DecidableEq P] [DecidableEq S] (sd : List (S × List P)) : Prop :=
  (sd.map Prod.fst).Nodup ∧ ∀ s ps, lookupA sd s = some ps → ps.Nodup

/-- Structural well-formedness of the maps: dict keys are distinct and
each dependent set is duplicate-free. -/
def DepWF {P S : Type} [DecidableEq P] [DecidableEq S] (g : DepMaps P S) : Prop :=
  (g.hpy_dependency.map Prod.fst).Nodup ∧ SdWF g.script_dependents

/-- A reverse index `sd` is in lockstep with a forward dependency
function `f`: a present entry is nonempty and lists exactly the pages
whose forward dependency is that script, and an absent entry means no
page depends on the script. -/
def LockstepRel {P S : Type} [DecidableEq P] [DecidableEq S]
    (f : P → Option S) (sd : List (S × List P)) : Prop :=
  ∀ s : S,
    (∀ ps, lookupA sd s = some ps →
      ps ≠ [] ∧ ∀ p : P, p ∈ ps ↔ f p = some s) ∧
    (lookupA sd s = none → ∀ p : P, f p ≠ some s)

/-- The reverse index of the graph is in lockstep with its forward
map. -/
def Lockstep {P S : Type} [DecidableEq P] [DecidableEq S] (g : DepMaps P S) : Prop :=
  LockstepRel (depOf g) g.script_dependents

/-! ## components.py / building.py: the component expander

Modelled from the spec: the rendering function
`_render_content_recursively` is referenced by the note at the end of
components.py but is not present in the building.py of the sources.
Per spec section 4.3 the expander replaces every placeholder token left
by the parser with the rendered component, recursively with a
decremented depth budget; at depth 0 it emits an inline HTML comment
marker instead of recursing, and a missing component degrades to an
inline error comment. -/

/-- A recorded component invocation: the opaque placeholder token the
parser substituted into the markup, the dotted component name, and the
prop map. -/
structure Invocation where
  id : String
  name : String
  props : List (String × String)
  deriving Repr, DecidableEq

/-- Modelled from the spec: a component definition as parsed from its
source file, with its own body markup and nested invocations. -/
structure ComponentDef where
  body : String
  invocations : List Invocation
  deriving Repr

/-- Modelled from the spec: the fixed maximum component recursion
depth. -/
def MAX_COMPONENT_DEPTH : Nat := 10

/-- Modelled from the spec: the inline HTML comment emitted when the
depth budget is exhausted. -/
def depthExceededMarker (name : String) : String :=
  "<!-- hpy: max component depth exceeded at <" ++ name ++ "> -->"

/-- Modelled from the spec: the inline HTML comment emitted for an
unregistered component name. -/
def missingComponentMarker (name : String) : String :=
  "<!-- hpy: unknown component <" ++ name ++ "> -->"

/-- Modelled from the spec: substitute `{props.KEY}` occurrences of the
invocation's props into a component body. -/
def substProps (body : String) (props : List (String × String)) : String :=
  props.foldl
    (fun acc kv => pyReplace acc ("\x7bprops." ++ kv.1 ++ "\x7d") kv.2) body

/-- Modelled from the spec (section 4.3): render one component
invocation with a depth budget, replacing nested placeholders
recursively.  The recursion is structural on the budget, so expansion
always terminates, and both failure modes (depth exhausted, unknown
component) produce inline markers instead of raising. -/
def renderComponent (registry : String → Option ComponentDef) :
    Nat → Invocation → String
  | 0, inv => depthExceededMarker inv.name
  | depth + 1, inv =>
    match registry inv.name with
    | none => missingComponentMarker inv.name
    | some cdef =>
      (cdef.invocations.foldl
        (fun acc nested =>
          pyReplace acc nested.id (renderComponent registry depth nested))
        (substProps cdef.body inv.props))

/-- Modelled from the spec: expand every placeholder of a page body. -/
def render_content_recursively (registry : String → Option ComponentDef)
    (body : String) (invocations : List Invocation) (depth : Nat) : String :=
  invocations.foldl
    (fun acc inv => pyReplace acc inv.id (renderComponent registry depth inv)) body

/-! ## building.py: `copy_and_inject_py_script`

The model is the content transformation applied between the read on
line 314 and the write on line 320. -/

/-- Model of `copy_and_inject_py_script`: prepend the helper block
unless the (stripped) helper block already occurs in the script. -/
def copy_and_inject_py_script (original_content : String) : String :=
  if !(occursB HELPER_FUNCTION_CODE.pyStrip original_content) then
    HELPER_FUNCTION_CODE ++ "\n# --- Original User Code Below ---\n" ++ original_content
  else original_content

/-! ## General lemmas about the primitives -/

theorem strData_append (a b : String) : (a ++ b).data = a.data ++ b.data := rfl

theorem strExt {a b : String} (h : a.data = b.data) : a = b := by
  cases a; cases b; exact congrArg String.mk h

/-- Substring occurrence from an explicit decomposition at `String`
level. -/
theorem occursIn_of_decomp (pat a b s : String) (h : s = a ++ pat ++ b) :
    OccursIn pat s := by
  refine ⟨a.data, b.data, ?_⟩
  rw [h]
  simp [strData_append]

theorem leadsWith_refl (l : List Char) : leadsWith l l = true := by
  induction l with
  | nil => rfl
  | cons c cs ih => simp [leadsWith, ih]

theorem replaceAllL_nil (fuel : Nat) (pat repl : List Char) :
    replaceAllL fuel pat repl [] = [] := by
  cases fuel with
  | zero => rfl
  | succ n =>
    unfold replaceAllL
    cases h : pat.isEmpty <;> simp

theorem replaceAllL_succ_self (c : Char) (cs repl : List Char) (fuel : Nat) :
    replaceAllL (fuel + 1) (c :: cs) repl (c :: cs) = repl := by
  unfold replaceAllL
  simp only [List.isEmpty_cons, Bool.false_eq_true, if_false, leadsWith_refl,
    if_true, List.drop_length, replaceAllL_nil, List.append_nil]

/-- `s.replace(s, r)` is `r` for nonempty `s` (used for a placeholder
that is the entire body). -/
theorem pyReplace_self (p r : String) (h : p.data ≠ []) :
    pyReplace p p r = r := by
  unfold pyReplace
  apply strExt
  show replaceAllL p.data.length p.data r.data p.data = r.data
  cases hp : p.data with
  | nil => exact absurd hp h
  | cons c cs =>
    rw [List.length_cons]
    exact replaceAllL_succ_self c cs r.data cs.length

theorem mem_setInsert {P : Type} [DecidableEq P] (x y : P) (l : List P) :
    y ∈ setInsert x l ↔ y ∈ l ∨ y = x := by
  unfold setInsert
  split
  · constructor
    · exact Or.inl
    · rintro (h | rfl) <;> [exact h; assumption]
  · simp [or_comm]

theorem setInsert_ne_nil {P : Type} [DecidableEq P] (x : P) (l : List P) :
    setInsert x l ≠ [] := by
  unfold setInsert
  split
  · intro h
    subst h
    simp_all
  · simp

theorem nodup_setInsert {P : Type} [DecidableEq P] (x : P) (l : List P)
    (h : l.Nodup) : (setInsert x l).Nodup := by
  unfold setInsert
  split
  · exact h
  · next hx =>
    refine List.Nodup.append h (List.nodup_singleton x) ?_
    intro a ha hax
    rw [List.mem_singleton] at hax
    exact hx (hax ▸ ha)

theorem mem_setDiscard {P : Type} [DecidableEq P] (x y : P) (l : List P) :
    y ∈ setDiscard x l ↔ y ∈ l ∧ y ≠ x := by
  induction l with
  | nil => simp [setDiscard]
  | cons a as ih =>
    unfold setDiscard
    by_cases h : a = x
    · subst h
      rw [if_pos rfl, ih, List.mem_cons]
      constructor
      · rintro ⟨h1, h2⟩
        exact ⟨Or.inr h1, h2⟩
      · rintro ⟨h1 | h1, h2⟩
        · exact absurd h1 h2
        · exact ⟨h1, h2⟩
    · rw [if_neg h, List.mem_cons, List.mem_cons, ih]
      constructor
      · rintro (rfl | ⟨h1, h2⟩)
        · exact ⟨Or.inl rfl, h⟩
        · exact ⟨Or.inr h1, h2⟩
      · rintro ⟨rfl | h1, h2⟩
        · exact Or.inl rfl
        · exact Or.inr ⟨h1, h2⟩

theorem nodup_setDiscard {P : Type} [DecidableEq P] (x : P) (l : List P)
    (h : l.Nodup) : (setDiscard x l).Nodup := by
  induction l with
  | nil => simp [setDiscard]
  | cons a as ih =>
    unfold setDiscard
    rcases List.nodup_cons.mp h with ⟨ha, has⟩
    by_cases hax : a = x
    · simpa [hax] using ih has
    · simp only [if_neg hax, List.nodup_cons]
      exact ⟨fun hm => ha ((mem_setDiscard x a as).mp hm).1, ih has⟩

theorem setDiscard_eq_nil_iff {P : Type} [DecidableEq P] (x : P) (l : List P) :
    setDiscard x l = [] ↔ ∀ y ∈ l, y = x := by
  induction l with
  | nil => simp [setDiscard]
  | cons a as ih =>
    unfold setDiscard
    by_cases h : a = x
    · subst h
      simp [ih]
    · simp [h]

theorem lookupA_insertA_self {K V : Type} [DecidableEq K] (l : List (K × V))
    (k : K) (v : V) : lookupA (insertA l k v) k = some v := by
  induction l with
  | nil => simp [insertA, lookupA]
  | cons kv rest ih =>
    obtain ⟨k0, v0⟩ := kv
    unfold insertA
    by_cases h : k = k0
    · simp [h, lookupA]
    · simp [h, lookupA, ih]

theorem lookupA_insertA_ne {K V : Type} [DecidableEq K] (l : List (K × V))
    (k k2 : K) (v : V) (h : k2 ≠ k) :
    lookupA (insertA l k v) k2 = lookupA l k2 := by
  induction l with
  | nil => simp [insertA, lookupA, h]
  | cons kv rest ih =>
    obtain ⟨k0, v0⟩ := kv
    unfold insertA
    by_cases hk : k = k0
    · subst hk
      simp [lookupA, h]
    · simp only [if_neg hk]
      unfold lookupA
      by_cases h2 : k2 = k0
      · simp [h2]
      · simp [h2, ih]

theorem lookupA_eraseA_ne {K V : Type} [DecidableEq K] (l : List (K × V))
    (k k2 : K) (h : k2 ≠ k) :
    lookupA (eraseA l k) k2 = lookupA l k2 := by
  induction l with
  | nil => simp [eraseA]
  | cons kv rest ih =>
    obtain ⟨k0, v0⟩ := kv
    unfold eraseA
    by_cases hk : k = k0
    · rw [if_pos hk]
      show lookupA rest k2 = if k2 = k0 then some v0 else lookupA rest k2
      rw [if_neg (hk ▸ h)]
    · rw [if_neg hk]
      show (if k2 = k0 then some v0 else lookupA (eraseA rest k) k2) =
        if k2 = k0 then some v0 else lookupA rest k2
      by_cases h2 : k2 = k0
      · simp [h2]
      · simp [h2, ih]

theorem lookupA_eq_none_iff {K V : Type} [DecidableEq K] (l : List (K × V))
    (k : K) : lookupA l k = none ↔ k ∉ l.map Prod.fst := by
  induction l with
  | nil => simp [lookupA]
  | cons kv rest ih =>
    obtain ⟨k0, v0⟩ := kv
    unfold lookupA
    by_cases h : k = k0
    · simp [h]
    · simp [h, ih]

theorem lookupA_eraseA_self {K V : Type} [DecidableEq K] (l : List (K × V))
    (k : K) (nd : (l.map Prod.fst).Nodup) :
    lookupA (eraseA l k) k = none := by
  induction l with
  | nil => simp [eraseA, lookupA]
  | cons kv rest ih =>
    obtain ⟨k0, v0⟩ := kv
    rw [List.map_cons, List.nodup_cons] at nd
    unfold eraseA
    by_cases hk : k = k0
    · subst hk
      rw [if_pos rfl, lookupA_eq_none_iff]
      exact nd.1
    · rw [if_neg hk]
      unfold lookupA
      simp only [if_neg hk]
      exact ih nd.2

theorem lookupA_append_single {K V : Type} [DecidableEq K] (l : List (K × V))
    (k k2 : K) (v : V) :
    lookupA (l ++ [(k, v)]) k2 =
      match lookupA l k2 with
      | some w => some w
      | none => if k2 = k then some v else none := by
  induction l with
  | nil => simp [lookupA]
  | cons kv rest ih =>
    obtain ⟨k0, v0⟩ := kv
    rw [List.cons_append]
    unfold lookupA
    by_cases h : k2 = k0
    · simp [h]
    · simp [h, ih]


theorem mem_keys_insertA {K V : Type} [DecidableEq K] (l : List (K × V))
    (k : K) (v : V) (k1 : K) (h : k1 ∈ (insertA l k v).map Prod.fst) :
    k1 ∈ l.map Prod.fst ∨ k1 = k := by
  induction l with
  | nil =>
    simp [insertA] at h
    exact Or.inr h
  | cons kv rest ih =>
    obtain ⟨k0, v0⟩ := kv
    unfold insertA at h
    by_cases h2 : k = k0
    · rw [if_pos h2, List.map_cons, List.mem_cons] at h
      rcases h with h3 | h3
      · exact Or.inr h3
      · exact Or.inl (by simp only [List.map_cons, List.mem_cons]; exact Or.inr h3)
    · rw [if_neg h2, List.map_cons, List.mem_cons] at h
      rcases h with h3 | h3
      · exact Or.inl (by simp only [List.map_cons, List.mem_cons]; exact Or.inl h3)
      · rcases ih h3 with h4 | h4
        · exact Or.inl (by simp only [List.map_cons, List.mem_cons]; exact Or.inr h4)
        · exact Or.inr h4

theorem mem_keys_eraseA {K V : Type} [DecidableEq K] (l : List (K × V))
    (k : K) (k1 : K) (h : k1 ∈ (eraseA l k).map Prod.fst) :
    k1 ∈ l.map Prod.fst := by
  induction l with
  | nil => simp [eraseA] at h
  | cons kv rest ih =>
    obtain ⟨k0, v0⟩ := kv
    unfold eraseA at h
    by_cases h2 : k = k0
    · rw [if_pos h2] at h
      simp only [List.map_cons, List.mem_cons]
      exact Or.inr h
    · rw [if_neg h2, List.map_cons, List.mem_cons] at h
      simp only [List.map_cons, List.mem_cons]
      rcases h with h3 | h3
      · exact Or.inl h3
      · exact Or.inr (ih h3)

theorem nodupKeys_insertA {K V : Type} [DecidableEq K] (l : List (K × V))
    (k : K) (v : V) (nd : (l.map Prod.fst).Nodup) :
    ((insertA l k v).map Prod.fst).Nodup := by
  induction l with
  | nil => simp [insertA]
  | cons kv rest ih =>
    obtain ⟨k0, v0⟩ := kv
    rw [List.map_cons, List.nodup_cons] at nd
    unfold insertA
    by_cases h : k = k0
    · rw [if_pos h, List.map_cons, List.nodup_cons]
      exact ⟨h ▸ nd.1, nd.2⟩
    · rw [if_neg h, List.map_cons, List.nodup_cons]
      refine ⟨?_, ih nd.2⟩
      intro hmem
      rcases mem_keys_insertA rest k v k0 hmem with h4 | h4
      · exact nd.1 h4
      · exact h h4.symm

theorem nodupKeys_eraseA {K V : Type} [DecidableEq K] (l : List (K × V))
    (k : K) (nd : (l.map Prod.fst).Nodup) :
    ((eraseA l k).map Prod.fst).Nodup := by
  induction l with
  | nil => simp [eraseA]
  | cons kv rest ih =>
    obtain ⟨k0, v0⟩ := kv
    rw [List.map_cons, List.nodup_cons] at nd
    unfold eraseA
    by_cases h : k = k0
    · rw [if_pos h]
      exact nd.2
    · rw [if_neg h, List.map_cons, List.nodup_cons]
      exact ⟨fun hmem => nd.1 (mem_keys_eraseA rest k k0 hmem), ih nd.2⟩

theorem nodupKeys_append_single {K V : Type} [DecidableEq K] (l : List (K × V))
    (k : K) (v : V) (nd : (l.map Prod.fst).Nodup) (hk : k ∉ l.map Prod.fst) :
    ((l ++ [(k, v)]).map Prod.fst).Nodup := by
  rw [List.map_append]
  refine List.Nodup.append nd (by simp) ?_
  intro a ha hax
  rw [List.map_singleton, List.mem_singleton] at hax
  subst hax
  exact hk ha

/-- The forward reading of an `hpy_dependency` association list. -/
def depOfA {P S : Type} [DecidableEq P] (l : List (P × Option S)) (p : P) :
    Option S :=
  match lookupA l p with
  | some d => d
  | none => none

theorem depOf_eq_depOfA {P S : Type} [DecidableEq P] (g : DepMaps P S) (p : P) :
    depOf g p = depOfA g.hpy_dependency p := rfl

theorem depOfA_insertA {P S : Type} [DecidableEq P] (l : List (P × Option S))
    (hpy p : P) (d : Option S) :
    depOfA (insertA l hpy d) p = if p = hpy then d else depOfA l p := by
  unfold depOfA
  by_cases h : p = hpy
  · subst h
    rw [lookupA_insertA_self, if_pos rfl]
  · rw [lookupA_insertA_ne l hpy p d h, if_neg h]

theorem depOfA_eraseA {P S : Type} [DecidableEq P] (l : List (P × Option S))
    (hpy p : P) (nd : (l.map Prod.fst).Nodup) :
    depOfA (eraseA l hpy) p = if p = hpy then none else depOfA l p := by
  unfold depOfA
  by_cases h : p = hpy
  · subst h
    rw [lookupA_eraseA_self l p nd, if_pos rfl]
  · rw [lookupA_eraseA_ne l hpy p h, if_neg h]

theorem lockstepRel_congr {P S : Type} [DecidableEq P] [DecidableEq S]
    (f f2 : P → Option S) (sd : List (S × List P))
    (h : ∀ p, f p = f2 p) (hl : LockstepRel f sd) : LockstepRel f2 sd := by
  intro s
  obtain ⟨h1, h2⟩ := hl s
  refine ⟨fun ps hps => ?_, fun hn p => ?_⟩
  · obtain ⟨hne, hm⟩ := h1 ps hps
    exact ⟨hne, fun p => (h p) ▸ hm p⟩
  · exact (h p) ▸ h2 hn p

/-- Pointwise override of a forward dependency function at one page. -/
def overrideDep {P S : Type} [DecidableEq P] (f : P → Option S) (hpy : P)
    (d : Option S) : P → Option S :=
  fun p => if p = hpy then d else f p

theorem overrideDep_self {P S : Type} [DecidableEq P] (f : P → Option S)
    (hpy : P) (d : Option S) : overrideDep f hpy d hpy = d := by
  simp [overrideDep]

theorem overrideDep_ne {P S : Type} [DecidableEq P] (f : P → Option S)
    (hpy p : P) (d : Option S) (h : p ≠ hpy) : overrideDep f hpy d p = f p := by
  simp [overrideDep, h]

/-- The link-removal step preserves well-formedness and produces a
reverse index in lockstep with the forward function that no longer
maps the page anywhere. -/
theorem lockstepRel_removeLink {P S : Type} [DecidableEq P] [DecidableEq S]
    (f : P → Option S) (sd : List (S × List P)) (hpy : P)
    (wf : SdWF sd) (hl : LockstepRel f sd) :
    SdWF (removeLinkSd sd hpy (f hpy)) ∧
    LockstepRel (overrideDep f hpy none) (removeLinkSd sd hpy (f hpy)) := by
  obtain ⟨wfk, wfs⟩ := wf
  cases hold : f hpy with
  | none =>
    refine ⟨⟨wfk, wfs⟩, lockstepRel_congr f _ sd (fun p => ?_) hl⟩
    by_cases h : p = hpy
    · subst h
      rw [overrideDep_self, hold]
    · rw [overrideDep_ne f hpy p none h]
  | some o =>
    cases hsd : lookupA sd o with
    | none =>
      exact absurd hold ((hl o).2 hsd hpy)
    | some ps =>
      obtain ⟨hne, hmem⟩ := (hl o).1 ps hsd
      have hrl : removeLinkSd sd hpy (some o) =
          if setDiscard hpy ps = [] then eraseA sd o
          else insertA sd o (setDiscard hpy ps) := by
        show (match lookupA sd o with
          | some ps =>
            let ps2 := setDiscard hpy ps
            if ps2 = [] then eraseA sd o else insertA sd o ps2
          | none => sd) = _
        rw [hsd]
      rw [hrl]
      by_cases hnil : setDiscard hpy ps = []
      · rw [if_pos hnil]
        refine ⟨⟨nodupKeys_eraseA sd o wfk, fun s qs hqs => ?_⟩, fun s => ?_⟩
        · by_cases h : s = o
          · subst h
            rw [lookupA_eraseA_self sd s wfk] at hqs
            exact absurd hqs (by simp)
          · rw [lookupA_eraseA_ne sd o s h] at hqs
            exact wfs s qs hqs
        · refine ⟨fun qs hqs => ?_, fun hqs p hp => ?_⟩
          · by_cases h : s = o
            · subst h
              rw [lookupA_eraseA_self sd s wfk] at hqs
              exact absurd hqs (by simp)
            · rw [lookupA_eraseA_ne sd o s h] at hqs
              obtain ⟨hne2, hm2⟩ := (hl s).1 qs hqs
              refine ⟨hne2, fun p => ?_⟩
              by_cases hp : p = hpy
              · subst hp
                rw [overrideDep_self]
                refine iff_of_false (fun hmm => ?_) (by simp)
                have h5 := (hm2 p).mp hmm
                rw [hold] at h5
                exact h (Option.some.inj h5).symm
              · rw [overrideDep_ne f hpy p none hp]
                exact hm2 p
          · by_cases h : s = o
            · subst h
              by_cases hp2 : p = hpy
              · subst hp2
                rw [overrideDep_self] at hp
                exact absurd hp (by simp)
              · rw [overrideDep_ne f hpy p none hp2] at hp
                have hmem2 : p ∈ setDiscard hpy ps :=
                  (mem_setDiscard hpy p ps).mpr ⟨(hmem p).mpr hp, hp2⟩
                rw [hnil] at hmem2
                exact absurd hmem2 (by simp)
            · rw [lookupA_eraseA_ne sd o s h] at hqs
              by_cases hp2 : p = hpy
              · subst hp2
                rw [overrideDep_self] at hp
                exact absurd hp (by simp)
              · rw [overrideDep_ne f hpy p none hp2] at hp
                exact (hl s).2 hqs p hp
      · rw [if_neg hnil]
        refine ⟨⟨nodupKeys_insertA sd o _ wfk, fun s qs hqs => ?_⟩, fun s => ?_⟩
        · by_cases h : s = o
          · subst h
            rw [lookupA_insertA_self] at hqs
            exact (Option.some.inj hqs) ▸ nodup_setDiscard hpy ps (wfs s ps hsd)
          · rw [lookupA_insertA_ne sd o s _ h] at hqs
            exact wfs s qs hqs
        · refine ⟨fun qs hqs => ?_, fun hqs p hp => ?_⟩
          · by_cases h : s = o
            · subst h
              rw [lookupA_insertA_self] at hqs
              obtain rfl : setDiscard hpy ps = qs := Option.some.inj hqs
              refine ⟨hnil, fun p => ?_⟩
              rw [mem_setDiscard hpy p ps]
              by_cases hp : p = hpy
              · subst hp
                rw [overrideDep_self]
                simp
              · rw [overrideDep_ne f hpy p none hp, hmem p]
                simp [hp]
            · rw [lookupA_insertA_ne sd o s _ h] at hqs
              obtain ⟨hne2, hm2⟩ := (hl s).1 qs hqs
              refine ⟨hne2, fun p => ?_⟩
              by_cases hp : p = hpy
              · subst hp
                rw [overrideDep_self]
                refine iff_of_false (fun hmm => ?_) (by simp)
                have h5 := (hm2 p).mp hmm
                rw [hold] at h5
                exact h (Option.some.inj h5).symm
              · rw [overrideDep_ne f hpy p none hp]
                exact hm2 p
          · by_cases h : s = o
            · subst h
              rw [lookupA_insertA_self] at hqs
              exact absurd hqs (by simp)
            · rw [lookupA_insertA_ne sd o s _ h] at hqs
              by_cases hp2 : p = hpy
              · subst hp2
                rw [overrideDep_self] at hp
                exact absurd hp (by simp)
              · rw [overrideDep_ne f hpy p none hp2] at hp
                exact (hl s).2 hqs p hp

/-- The link-addition step preserves well-formedness and lockstep when
the page currently has no forward dependency. -/
theorem lockstepRel_addLink {P S : Type} [DecidableEq P] [DecidableEq S]
    (f : P → Option S) (sd : List (S × List P)) (hpy : P) (d : Option S)
    (wf : SdWF sd) (hl : LockstepRel f sd) (hnone : f hpy = none) :
    SdWF (addLinkSd sd hpy d) ∧
    LockstepRel (overrideDep f hpy d) (addLinkSd sd hpy d) := by
  obtain ⟨wfk, wfs⟩ := wf
  cases d with
  | none =>
    refine ⟨⟨wfk, wfs⟩, lockstepRel_congr f _ sd (fun p => ?_) hl⟩
    by_cases h : p = hpy
    · subst h
      rw [overrideDep_self, hnone]
    · rw [overrideDep_ne f hpy p none h]
  | some t =>
    cases hsd : lookupA sd t with
    | some ps =>
      obtain ⟨hne, hmem⟩ := (hl t).1 ps hsd
      have hal : addLinkSd sd hpy (some t) = insertA sd t (setInsert hpy ps) := by
        show (match lookupA sd t with
          | some ps => insertA sd t (setInsert hpy ps)
          | none => sd ++ [(t, [hpy])]) = _
        rw [hsd]
      rw [hal]
      refine ⟨⟨nodupKeys_insertA sd t _ wfk, fun s qs hqs => ?_⟩, fun s => ?_⟩
      · by_cases h : s = t
        · subst h
          rw [lookupA_insertA_self] at hqs
          exact (Option.some.inj hqs) ▸ nodup_setInsert hpy ps (wfs s ps hsd)
        · rw [lookupA_insertA_ne sd t s _ h] at hqs
          exact wfs s qs hqs
      · refine ⟨fun qs hqs => ?_, fun hqs p hp => ?_⟩
        · by_cases h : s = t
          · subst h
            rw [lookupA_insertA_self] at hqs
            obtain rfl : setInsert hpy ps = qs := Option.some.inj hqs
            refine ⟨setInsert_ne_nil hpy ps, fun p => ?_⟩
            rw [mem_setInsert hpy p ps]
            by_cases hp : p = hpy
            · subst hp
              rw [overrideDep_self]
              simp
            · rw [overrideDep_ne f hpy p _ hp, hmem p]
              simp [hp]
          · rw [lookupA_insertA_ne sd t s _ h] at hqs
            obtain ⟨hne2, hm2⟩ := (hl s).1 qs hqs
            refine ⟨hne2, fun p => ?_⟩
            by_cases hp : p = hpy
            · subst hp
              rw [overrideDep_self]
              refine iff_of_false (fun hmm => ?_) (fun e => h (Option.some.inj e).symm)
              have h5 := (hm2 p).mp hmm
              rw [hnone] at h5
              exact absurd h5 (by simp)
            · rw [overrideDep_ne f hpy p _ hp]
              exact hm2 p
        · by_cases h : s = t
          · subst h
            rw [lookupA_insertA_self] at hqs
            exact absurd hqs (by simp)
          · rw [lookupA_insertA_ne sd t s _ h] at hqs
            by_cases hp2 : p = hpy
            · subst hp2
              rw [overrideDep_self] at hp
              exact h (Option.some.inj hp).symm
            · rw [overrideDep_ne f hpy p _ hp2] at hp
              exact (hl s).2 hqs p hp
    | none =>
      have hal : addLinkSd sd hpy (some t) = sd ++ [(t, [hpy])] := by
        show (match lookupA sd t with
          | some ps => insertA sd t (setInsert hpy ps)
          | none => sd ++ [(t, [hpy])]) = _
        rw [hsd]
      rw [hal]
      have htk : t ∉ sd.map Prod.fst := (lookupA_eq_none_iff sd t).mp hsd
      refine ⟨⟨nodupKeys_append_single sd t [hpy] wfk htk, fun s qs hqs => ?_⟩,
        fun s => ?_⟩
      · rw [lookupA_append_single sd t s [hpy]] at hqs
        cases hw : lookupA sd s with
        | some w =>
          rw [hw] at hqs
          exact (Option.some.inj hqs) ▸ wfs s w hw
        | none =>
          rw [hw] at hqs
          by_cases h : s = t
          · rw [if_pos h] at hqs
            exact (Option.some.inj hqs) ▸ List.nodup_singleton hpy
          · rw [if_neg h] at hqs
            exact absurd hqs (by simp)
      · refine ⟨fun qs hqs => ?_, fun hqs p hp => ?_⟩
        · rw [lookupA_append_single sd t s [hpy]] at hqs
          cases hw : lookupA sd s with
          | some w =>
            rw [hw] at hqs
            obtain rfl : w = qs := Option.some.inj hqs
            obtain ⟨hne2, hm2⟩ := (hl s).1 w hw
            have hst : s ≠ t := by
              intro e
              rw [e, hsd] at hw
              exact absurd hw (by simp)
            refine ⟨hne2, fun p => ?_⟩
            by_cases hp : p = hpy
            · subst hp
              rw [overrideDep_self]
              refine iff_of_false (fun hmm => ?_) (fun e => hst (Option.some.inj e).symm)
              have h5 := (hm2 p).mp hmm
              rw [hnone] at h5
              exact absurd h5 (by simp)
            · rw [overrideDep_ne f hpy p _ hp]
              exact hm2 p
          | none =>
            rw [hw] at hqs
            by_cases h : s = t
            · subst h
              rw [if_pos rfl] at hqs
              obtain rfl : [hpy] = qs := Option.some.inj hqs
              refine ⟨by simp, fun p => ?_⟩
              rw [List.mem_singleton]
              by_cases hp : p = hpy
              · subst hp
                rw [overrideDep_self]
                simp
              · rw [overrideDep_ne f hpy p _ hp]
                refine iff_of_false hp (fun e => ?_)
                exact (hl s).2 hw p e
            · rw [if_neg h] at hqs
              exact absurd hqs (by simp)
        · rw [lookupA_append_single sd t s [hpy]] at hqs
          cases hw : lookupA sd s with
          | some w =>
            rw [hw] at hqs
            exact absurd hqs (by simp)
          | none =>
            rw [hw] at hqs
            by_cases h : s = t
            · rw [if_pos h] at hqs
              exact absurd hqs (by simp)
            · by_cases hp2 : p = hpy
              · subst hp2
                rw [overrideDep_self] at hp
                exact h (Option.some.inj hp).symm
              · rw [overrideDep_ne f hpy p _ hp2] at hp
                exact (hl s).2 hw p hp

/-! ## Claim theorems -/

/-- Claim C6: after every dependency-map update (create/modify events)
or removal (delete events) for a page, the reverse index
`script_dependents` stays in lockstep with the forward map
`hpy_dependency`: a present entry lists exactly the pages whose
forward dependency is that script, an absent entry means no page
depends on it, and an entry whose set becomes empty is deleted
(present entries are always nonempty).  Well-formedness of the maps is
preserved as well. -/
theorem C6_script_dependents_lockstep {P S : Type} [DecidableEq P] [DecidableEq S]
    (g : DepMaps P S) (hpy : P) (valid : Bool) (d : Option S)
    (hwf : DepWF g) (hl : Lockstep g) :
    (DepWF (update_dependencies g hpy valid d) ∧
      Lockstep (update_dependencies g hpy valid d)) ∧
    (DepWF (remove_dependencies g hpy) ∧
      Lockstep (remove_dependencies g hpy)) := by
  obtain ⟨ndk, sdwf⟩ := hwf
  have hrm := lockstepRel_removeLink (depOf g) g.script_dependents hpy sdwf hl
  constructor
  · cases valid with
    | false =>
      exact ⟨⟨ndk, sdwf⟩, hl⟩
    | true =>
      have hg1 : update_dependencies g hpy true d =
          ⟨setInsert hpy g.page_files,
           insertA g.hpy_dependency hpy d,
           addLinkSd (removeLinkSd g.script_dependents hpy (depOf g hpy)) hpy d⟩ := rfl
      rw [hg1]
      have hadd := lockstepRel_addLink (overrideDep (depOf g) hpy none) _ hpy d
        hrm.1 hrm.2 (overrideDep_self (depOf g) hpy none)
      refine ⟨⟨nodupKeys_insertA g.hpy_dependency hpy d ndk, hadd.1⟩, ?_⟩
      refine lockstepRel_congr _ _ _ (fun p => ?_) hadd.2
      rw [depOf_eq_depOfA]
      show overrideDep (overrideDep (depOf g) hpy none) hpy d p =
        depOfA (insertA g.hpy_dependency hpy d) p
      rw [depOfA_insertA]
      by_cases hp : p = hpy
      · subst hp
        rw [if_pos rfl, overrideDep_self]
      · rw [if_neg hp, overrideDep_ne _ hpy p d hp, overrideDep_ne _ hpy p none hp]
        rfl
  · have hg2 : remove_dependencies g hpy =
        ⟨setDiscard hpy g.page_files,
         eraseA g.hpy_dependency hpy,
         removeLinkSd g.script_dependents hpy (depOf g hpy)⟩ := rfl
    rw [hg2]
    refine ⟨⟨nodupKeys_eraseA g.hpy_dependency hpy ndk, hrm.1⟩, ?_⟩
    refine lockstepRel_congr _ _ _ (fun p => ?_) hrm.2
    rw [depOf_eq_depOfA]
    show overrideDep (depOf g) hpy none p = depOfA (eraseA g.hpy_dependency hpy) p
    rw [depOfA_eraseA g.hpy_dependency hpy p ndk]
    by_cases hp : p = hpy
    · subst hp
      rw [if_pos rfl, overrideDep_self]
    · rw [if_neg hp, overrideDep_ne _ hpy p none hp]
      rfl

theorem C6_script_dependents_lockstep_witness :
    (DepWF (update_dependencies (⟨[], [], []⟩ : DepMaps Nat Nat) 0 true (some 1)) ∧
      Lockstep (update_dependencies (⟨[], [], []⟩ : DepMaps Nat Nat) 0 true (some 1))) ∧
    (DepWF (remove_dependencies (⟨[], [], []⟩ : DepMaps Nat Nat) 0) ∧
      Lockstep (remove_dependencies (⟨[], [], []⟩ : DepMaps Nat Nat) 0)) :=
  C6_script_dependents_lockstep ⟨[], [], []⟩ 0 true (some 1)
    ⟨by simp, by simp [SdWF, lookupA], fun s ps hps => by simp [lookupA] at hps⟩
    (fun s => ⟨fun ps hps => by simp [lookupA] at hps,
      fun _ p => by simp [depOf, lookupA]⟩)

/-- The helper block occurs in anything it has been prepended to: the
injected text always re-contains the stripped helper block. -/
theorem helper_occurs_in_prepended (x : String) :
    occursB HELPER_FUNCTION_CODE.pyStrip (HELPER_FUNCTION_CODE ++ x) = true := by
  apply (occursB_iff _ _).mpr
  have hdec : HELPER_FUNCTION_CODE = "\n" ++ HELPER_FUNCTION_CODE.pyStrip ++ "\n" := by
    decide
  refine ⟨"\n".data, ("\n" ++ x).data, ?_⟩
  calc (HELPER_FUNCTION_CODE ++ x).data
      = (("\n" ++ HELPER_FUNCTION_CODE.pyStrip ++ "\n") ++ x).data := by rw [← hdec]
    _ = "\n".data ++ HELPER_FUNCTION_CODE.pyStrip.data ++ ("\n" ++ x).data := by
        simp [strData_append, List.append_assoc]

/-- Claim C10: `copy_and_inject_py_script` is idempotent on script
content: it prepends the helper block only when the stripped helper
block is not already present, so re-processing its own output (or any
script already containing the helpers) writes the content unchanged
and the helper block is never injected twice. -/
theorem C10_copy_and_inject_idempotent :
    (∀ s : String,
      copy_and_inject_py_script (copy_and_inject_py_script s) =
        copy_and_inject_py_script s) ∧
    (∀ s : String, occursB HELPER_FUNCTION_CODE.pyStrip s = true →
      copy_and_inject_py_script s = s) := by
  have already : ∀ s : String, occursB HELPER_FUNCTION_CODE.pyStrip s = true →
      copy_and_inject_py_script s = s := by
    intro s h
    unfold copy_and_inject_py_script
    rw [h]
    simp
  refine ⟨fun s => ?_, already⟩
  cases h : occursB HELPER_FUNCTION_CODE.pyStrip s with
  | true =>
    rw [already s h, already s h]
  | false =>
    have hinj : copy_and_inject_py_script s =
        HELPER_FUNCTION_CODE ++ "\n# --- Original User Code Below ---\n" ++ s := by
      unfold copy_and_inject_py_script
      rw [h]
      simp
    rw [hinj]
    apply already
    rw [String.append_assoc]
    exact helper_occurs_in_prepended ("\n# --- Original User Code Below ---\n" ++ s)

theorem C10_copy_and_inject_idempotent_witness :
    copy_and_inject_py_script HELPER_FUNCTION_CODE = HELPER_FUNCTION_CODE :=
  C10_copy_and_inject_idempotent.2 HELPER_FUNCTION_CODE (by decide)

/-- Every successful parse carries exactly the script/python fields
computed by the extraction steps. -/
theorem parse_hpy_file_fields (content : String) (il : Bool) (r : ParseResult)
    (h : parse_hpy_file content il = .ok r) :
    r.script_src = parsedScriptSrc content ∧ r.python = parsedPython content := by
  unfold parse_hpy_file at h
  repeat' split at h
  all_goals first
    | exact Except.noConfusion h
    | (cases Except.ok.inj h; exact ⟨rfl, rfl⟩)

/-- Claim C2: if the parser records an external script reference, the
inline script field is `None`; and the compiled HTML of such a page
uses only the external script tag — the page's inline script content
has no influence on the output at all. -/
theorem C2_script_exclusivity :
    (∀ (content : String) (il : Bool) (r : ParseResult),
      parse_hpy_file content il = .ok r → r.script_src.isSome = true →
      r.python = none) ∧
    (∀ (ext py : Option String) (nh : Bool), truthy ext = true →
      pagePythonScriptTag ext py nh =
        "<script type=\"text/python\" src=\"" ++ orEmpty ext ++
        "\" id=\"_hpy_page_script_external\"></script>") ∧
    (∀ (name : String) (shell : Option String) (layout : Option ParseResult)
      (page : ParseResult) (ext : Option String) (css : List String)
      (stem : String) (dw pb : Bool), truthy ext = true →
      compile_hpy_file name shell layout page ext css stem dw pb =
      compile_hpy_file name shell layout { page with python := none } ext css
        stem dw pb) := by
  refine ⟨fun content il r h hs => ?_, fun ext py nh h => ?_, ?_⟩
  · obtain ⟨h1, h2⟩ := parse_hpy_file_fields content il r h
    rw [h1] at hs
    rw [h2]
    unfold parsedPython
    rw [if_pos hs]
  · simp [pagePythonScriptTag, h]
  · intro name shell layout page ext css stem dw pb h
    simp [compile_hpy_file, h]

theorem C2_script_exclusivity_witness :
    ((⟨"Hi", "", none, some "app.py", none⟩ : ParseResult).python = none) ∧
    (compile_hpy_file "a.hpy" none none ⟨"Hi", "", some "print(1)", some "app.py", none⟩
        (some "app.py") [] "a" false false =
      compile_hpy_file "a.hpy" none none ⟨"Hi", "", none, some "app.py", none⟩
        (some "app.py") [] "a" false false) :=
  ⟨C2_script_exclusivity.1 "<python src=\"app.py\"></python><html>Hi</html>" false
      ⟨"Hi", "", none, some "app.py", none⟩ (by rfl) (by decide),
   C2_script_exclusivity.2.2 "a.hpy" none none
      ⟨"Hi", "", some "print(1)", some "app.py", none⟩ (some "app.py") [] "a"
      false false (by decide)⟩

/-- Claim C3: a layout whose body section (from the
`<hpy-head>`/`<hpy-body>` pair or from the legacy wrapping `<html>`
element) lacks the page-content placeholder fails to parse with a
`ValueError`-class error — equivalently, every successfully parsed
layout contains the placeholder in its body — and in directory mode a
failed layout parse aborts the build with an error before any page is
compiled. -/
theorem C3_layout_placeholder_enforcement :
    (∀ (content : String) (r : ParseResult),
      parse_hpy_file content true = .ok r →
      occursB LAYOUT_PLACEHOLDER r.html = true) ∧
    (parse_hpy_file "<hpy-head>h</hpy-head><hpy-body>no token here</hpy-body>" true =
      .error ("Layout file (using <hpy-body>) must contain placeholder " ++
        LAYOUT_PLACEHOLDER ++ ".")) ∧
    (parse_hpy_file "<html>no token here</html>" true =
      .error ("Layout file (using <html>) must contain placeholder " ++
        LAYOUT_PLACEHOLDER ++ ".")) ∧
    (∀ (inp : DirInput) (dw pb : Bool) (lc e : String),
      inp.input_dir_exists = true → inp.layout = some lc →
      parse_hpy_file lc true = .error e →
      compile_directory inp dw pb =
        .error ("RuntimeError: Layout file parsing failed: " ++ e)) := by
  refine ⟨fun content r h => ?_, by rfl, by rfl, fun inp dw pb lc e hdir hlc herr => ?_⟩
  · unfold parse_hpy_file at h
    repeat' split at h
    all_goals first
      | exact Except.noConfusion h
      | (cases Except.ok.inj h; simp_all)
  · simp [compile_directory, layout_parse_result, hdir, hlc, herr]

theorem C3_layout_placeholder_enforcement_witness :
    occursB LAYOUT_PLACEHOLDER
      (ParseResult.html ⟨"a <!-- HPY_PAGE_CONTENT --> b", "", none, none, some "x"⟩) = true ∧
    compile_directory ⟨true, none, some "<html>no token here</html>", [], [], none⟩
        false false =
      .error ("RuntimeError: Layout file parsing failed: " ++
        ("Layout file (using <html>) must contain placeholder " ++
          LAYOUT_PLACEHOLDER ++ ".")) :=
  ⟨C3_layout_placeholder_enforcement.1
      "<hpy-head>x</hpy-head><hpy-body>a <!-- HPY_PAGE_CONTENT --> b</hpy-body>"
      ⟨"a <!-- HPY_PAGE_CONTENT --> b", "", none, none, some "x"⟩ (by rfl),
   C3_layout_placeholder_enforcement.2.2.2
      ⟨true, none, some "<html>no token here</html>", [], [], none⟩ false false
      "<html>no token here</html>"
      ("Layout file (using <html>) must contain placeholder " ++
        LAYOUT_PLACEHOLDER ++ ".") (by rfl) (by rfl) (by rfl)⟩

/-- Did the computation succeed (no exception reached the handler)? -/
def isOkE {ε α : Type} : Except ε α → Bool
  | .ok _ => true
  | .error _ => false

/-- A successful page run always yields that page's output path. -/
theorem process_page_ok_val (sh : Option String) (lp : Option ParseResult)
    (fs : List FsPath) (st : Option (List String)) (p : PageFile) (dw pb : Bool)
    (v : String) (h : process_page sh lp fs st p dw pb = .ok v) :
    v = outputHtmlName p := by
  unfold process_page at h
  repeat' split at h
  all_goals first
    | exact Except.noConfusion h
    | exact (Except.ok.inj h).symm

/-- The page loop of `compile_directory`: every page is processed; each
failure adds one to the error count and each success appends its
output, regardless of the failures of other pages. -/
theorem compileDirStep_foldl (sh : Option String) (lp : Option ParseResult)
    (fs : List FsPath) (st : Option (List String)) (dw pb : Bool)
    (pages : List PageFile) (acc : List String × Nat) :
    pages.foldl (compileDirStep sh lp fs st dw pb) acc =
      (acc.1 ++ (pages.filter
          (fun p => isOkE (process_page sh lp fs st p dw pb))).map outputHtmlName,
       acc.2 + (pages.filter
          (fun p => !isOkE (process_page sh lp fs st p dw pb))).length) := by
  induction pages generalizing acc with
  | nil => simp
  | cons p ps ih =>
    rw [List.foldl_cons, ih]
    cases h : process_page sh lp fs st p dw pb with
    | ok v =>
      have hv := process_page_ok_val sh lp fs st p dw pb v h
      subst hv
      simp [compileDirStep, h, isOkE, List.filter_cons]
    | error e =>
      simp [compileDirStep, h, isOkE, List.filter_cons, Nat.add_comm, Nat.add_assoc,
        Nat.add_left_comm]

/-- Claim C8: during a directory build, an exception in any single
page's processing is caught and recorded without preventing the
remaining pages: with the source root present and the layout parse
successful, the build returns normally with the successful pages'
outputs (in order) and the count of failed pages; it propagates an
error to its caller only when the source root is missing or the layout
parse failed. -/
theorem C8_per_page_isolation :
    (∀ (inp : DirInput) (dw pb : Bool) (lp : Option ParseResult),
      inp.input_dir_exists = true →
      layout_parse_result inp = .ok lp →
      compile_directory inp dw pb = .ok
        ((inp.pages.filter (fun p =>
            isOkE (process_page inp.app_shell lp inp.fs inp.static_dir p dw pb))).map
          outputHtmlName,
         (inp.pages.filter (fun p =>
            !isOkE (process_page inp.app_shell lp inp.fs inp.static_dir p dw pb))).length)) ∧
    (∀ (inp : DirInput) (dw pb : Bool), inp.input_dir_exists = false →
      compile_directory inp dw pb = .error "FileNotFoundError: Input dir not found") ∧
    (∀ (inp : DirInput) (dw pb : Bool) (e : String),
      inp.input_dir_exists = true → layout_parse_result inp = .error e →
      compile_directory inp dw pb = .error e) := by
  refine ⟨fun inp dw pb lp hdir hlp => ?_, fun inp dw pb hdir => ?_,
    fun inp dw pb e hdir hlp => ?_⟩
  · unfold compile_directory
    rw [hdir, hlp]
    simp only [Bool.not_true, Bool.false_eq_true, if_false]
    rw [compileDirStep_foldl]
    simp
  · unfold compile_directory
    rw [hdir]
    simp
  · unfold compile_directory
    rw [hdir, hlp]
    simp

theorem C8_per_page_isolation_witness :
    compile_directory
      ⟨true, none, none,
       [⟨[], "ok.hpy", "<html>fine</html>"⟩,
        ⟨[], "bad.hpy", "<python src=\"missing.py\"></python><html>x</html>"⟩],
       [], none⟩ false false = .ok (["ok.html"], 1) :=
  (C8_per_page_isolation.1
    ⟨true, none, none,
     [⟨[], "ok.hpy", "<html>fine</html>"⟩,
      ⟨[], "bad.hpy", "<python src=\"missing.py\"></python><html>x</html>"⟩],
     [], none⟩ false false none rfl rfl).trans (by rfl)

/-- Claim C7 counterexample: with the static-assets directory name
configured to alias the conventional script path (static dir `a.py`
next to page `a.hpy`), the conventional same-stem script exists on
disk yet the page resolves to NO external script — the claim's "the
conventional same-stem .py file is used when present" fails. -/
theorem C7_resolve_script_counterexample :
    resolve_page_script [⟨0, ["a.py"]⟩] (some ["a.py"]) ⟨[], "a.hpy", ""⟩ none =
      .ok none ∧
    (⟨0, ["a.py"]⟩ : FsPath) ∈ [(⟨0, ["a.py"]⟩ : FsPath)] := by
  constructor
  · rfl
  · decide

/-- Claim C7 (as amended): an explicit script reference is resolved
against the page's directory and must exist, lie inside the source
root and not lie inside the static root; satisfying all three yields
exactly the resolved path, and violating any of them makes the
resolution raise, which in turn makes that page's build fail (the
error reaches the per-page handler).  With no explicit reference the
conventional same-stem `.py` file is used when it exists and does not
lie inside the static root, else the page has no external script. -/
theorem C7_resolve_script_amended :
    (∀ (fs : List FsPath) (st : Option (List String)) (page : PageFile) (src : String),
      (resolveRel page.dir src ∈ fs ∧ (resolveRel page.dir src).up = 0 ∧
          inStaticDir st (resolveRel page.dir src) = false →
        resolve_page_script fs st page (some src) =
          .ok (some (resolveRel page.dir src))) ∧
      (resolveRel page.dir src ∉ fs ∨ (resolveRel page.dir src).up ≠ 0 ∨
          inStaticDir st (resolveRel page.dir src) = true →
        isOkE (resolve_page_script fs st page (some src)) = false)) ∧
    (∀ (fs : List FsPath) (st : Option (List String)) (page : PageFile),
      resolve_page_script fs st page none =
        .ok (if (⟨0, page.dir ++ [withSuffixPy page.name]⟩ : FsPath) ∈ fs ∧
              inStaticDir st ⟨0, page.dir ++ [withSuffixPy page.name]⟩ = false
            then some ⟨0, page.dir ++ [withSuffixPy page.name]⟩ else none)) ∧
    (∀ (sh : Option String) (lp : Option ParseResult) (fs : List FsPath)
      (st : Option (List String)) (p : PageFile) (dw pb : Bool) (r : ParseResult),
      parse_hpy_file p.content false = .ok r →
      isOkE (resolve_page_script fs st p r.script_src) = false →
      isOkE (process_page sh lp fs st p dw pb) = false) := by
  refine ⟨fun fs st page src => ⟨fun ⟨h1, h2, h3⟩ => ?_, fun h => ?_⟩,
    fun fs st page => ?_, fun sh lp fs st p dw pb r hparse hres => ?_⟩
  · simp [resolve_page_script, h1, h2, h3]
  · rcases h with h1 | h2 | h3
    · simp [resolve_page_script, h1, isOkE]
    · by_cases hm : resolveRel page.dir src ∈ fs
      · simp [resolve_page_script, hm, h2, isOkE]
      · simp [resolve_page_script, hm, isOkE]
    · by_cases hm : resolveRel page.dir src ∈ fs
      · by_cases hu : (resolveRel page.dir src).up = 0
        · simp [resolve_page_script, hm, hu, h3, isOkE]
        · simp [resolve_page_script, hm, hu, isOkE]
      · simp [resolve_page_script, hm, isOkE]
  · by_cases hm : (⟨0, page.dir ++ [withSuffixPy page.name]⟩ : FsPath) ∈ fs
    · by_cases hs : inStaticDir st ⟨0, page.dir ++ [withSuffixPy page.name]⟩ = true
      · simp [resolve_page_script, hm, hs]
      · simp [resolve_page_script, hm, hs]
    · simp [resolve_page_script, hm]
  · cases hres2 : resolve_page_script fs st p r.script_src with
    | error e => simp [process_page, hparse, hres2, isOkE]
    | ok v =>
      rw [hres2] at hres
      exact absurd hres (by simp [isOkE])

theorem C7_resolve_script_amended_witness :
    (resolve_page_script [⟨0, ["scripts", "app.py"]⟩] none
        ⟨["pages"], "index.hpy", ""⟩ (some "../scripts/app.py") =
      .ok (some (resolveRel ["pages"] "../scripts/app.py"))) ∧
    (resolve_page_script [] none ⟨["pages"], "index.hpy", ""⟩ none = .ok none) ∧
    isOkE (process_page none none [] none
      ⟨[], "bad.hpy", "<python src=\"missing.py\"></python><html>x</html>"⟩
      false false) = false :=
  ⟨(C7_resolve_script_amended.1 [⟨0, ["scripts", "app.py"]⟩] none
      ⟨["pages"], "index.hpy", ""⟩ "../scripts/app.py").1
      ⟨List.mem_singleton.mpr (by rfl), by rfl, by rfl⟩,
   (C7_resolve_script_amended.2.1 [] none ⟨["pages"], "index.hpy", ""⟩).trans (by rfl),
   C7_resolve_script_amended.2.2 none none [] none
     ⟨[], "bad.hpy", "<python src=\"missing.py\"></python><html>x</html>"⟩ false false
     ⟨"x", "", none, some "missing.py", none⟩ (by rfl) (by rfl)⟩

/-- A component that invokes itself: the body is exactly its own
placeholder token. -/
def selfInvocation : Invocation := ⟨"@HPY-INST-1@", "A", []⟩

/-- Registry containing only the self-invoking component `A`. -/
def selfCycleRegistry : String → Option ComponentDef := fun n =>
  if n = "A" then some ⟨"@HPY-INST-1@", [selfInvocation]⟩ else none

/-- Registry with a two-component cycle `A -> B -> A`. -/
def twoCycleRegistry : String → Option ComponentDef := fun n =>
  if n = "A" then some ⟨"@HPY-INST-B@", [⟨"@HPY-INST-B@", "B", []⟩]⟩
  else if n = "B" then some ⟨"@HPY-INST-A@", [⟨"@HPY-INST-A@", "A", []⟩]⟩
  else none

/-- Claim C5: component expansion is depth-bounded — the expander is a
total function structurally recursive on the depth budget, an
exhausted budget yields the inline depth-exceeded comment marker
instead of raising, and a component invoking itself directly (for any
budget) or through a two-component cycle (at the fixed maximum depth)
renders to the marker rather than looping or aborting the page
build. -/
theorem C5_component_recursion_bound :
    (∀ (reg : String → Option ComponentDef) (inv : Invocation),
      renderComponent reg 0 inv = depthExceededMarker inv.name) ∧
    (∀ d : Nat, renderComponent selfCycleRegistry d selfInvocation =
      depthExceededMarker "A") ∧
    (renderComponent twoCycleRegistry MAX_COMPONENT_DEPTH ⟨"@HPY-INST-A@", "A", []⟩ =
      depthExceededMarker "A") := by
  have hself : ∀ d : Nat, renderComponent selfCycleRegistry d selfInvocation =
      depthExceededMarker "A" := by
    intro d
    induction d with
    | zero => rfl
    | succ d ih =>
      show ([selfInvocation].foldl
        (fun acc nested =>
          pyReplace acc nested.id (renderComponent selfCycleRegistry d nested))
        (substProps "@HPY-INST-1@" [])) = depthExceededMarker "A"
      rw [List.foldl_cons, List.foldl_nil]
      show pyReplace "@HPY-INST-1@" "@HPY-INST-1@"
        (renderComponent selfCycleRegistry d selfInvocation) = depthExceededMarker "A"
      rw [pyReplace_self _ _ (by decide)]
      exact ih
  exact ⟨fun reg inv => rfl, hself, by rfl⟩

theorem strAppend_assoc (a b c : String) : a ++ b ++ c = a ++ (b ++ c) :=
  strExt (by simp [strData_append])

/-! ## Substring-insertion and scanner lemmas

Helper results about the `</body>` script-injection step, the
placeholder-marker replacement, and the title scanners of building.py,
shared by the build claims below. -/

theorem strData_mk (l : List Char) : (⟨l⟩ : String).data = l := rfl

theorem dropAppendLen {α : Type} (a x : List α) (k : Nat) :
    (a ++ x).drop (a.length + k) = x.drop k := by
  induction a with
  | nil => simp
  | cons c cs ih => simp [Nat.succ_add, ih]

theorem takeAppendLen {α : Type} (a x : List α) :
    (a ++ x).take a.length = a := by
  induction a with
  | nil => simp
  | cons c cs ih => simp [ih]

theorem findIdxCS_isSome_of_occursL (pat s : List Char)
    (h : occursL pat s = true) : ∃ i, findIdxCS pat s = some i := by
  induction s with
  | nil =>
    simp only [occursL, List.isEmpty_iff] at h
    subst h
    exact ⟨0, rfl⟩
  | cons c rest ih =>
    simp only [occursL, Bool.or_eq_true] at h
    by_cases hm : leadsWith pat (c :: rest) = true
    · exact ⟨0, by simp [findIdxCS, findIdxBy, hm]⟩
    · have h2 : occursL pat rest = true := by
        rcases h with h | h
        · exact absurd h hm
        · exact h
      rcases ih h2 with ⟨i, hi⟩
      refine ⟨i + 1, ?_⟩
      simp only [findIdxCS, findIdxBy, hm, if_false]
      rw [show findIdxBy leadsWith pat rest = some i from hi]
      rfl

theorem occursIn_pyReplaceOnce_of_occurs (s pat repl mid : String)
    (hp : occursL pat.data s.data = true)
    (hm : OccursIn mid repl) :
    OccursIn mid (pyReplaceOnce s pat repl) := by
  rcases findIdxCS_isSome_of_occursL pat.data s.data hp with ⟨i, hi⟩
  rcases hm with ⟨x, y, hxy⟩
  unfold pyReplaceOnce
  rw [hi]
  exact ⟨s.data.take i ++ x, y ++ s.data.drop (i + pat.data.length), by
    simp only [strData_mk]
    rw [hxy]
    simp [List.append_assoc]⟩

theorem occursIn_inject_scripts (temp3 scripts mid : String)
    (h : OccursIn mid scripts) :
    OccursIn mid (inject_scripts_before_body_end temp3 scripts) := by
  unfold inject_scripts_before_body_end
  cases hk : findIdxCI "</body>".data temp3.data with
  | none =>
    rcases h with ⟨x, y, hxy⟩
    exact ⟨temp3.data ++ x, y, by
      simp only [strData_append]
      rw [hxy]
      simp [List.append_assoc]⟩
  | some k =>
    apply occursIn_pyReplaceOnce_of_occurs
    · apply (occursL_iff _ _).mpr
      refine ⟨temp3.data.take k, (temp3.data.drop k).drop 7, ?_⟩
      rw [strData_mk, List.append_assoc, List.take_append_drop,
        List.take_append_drop]
    · rcases h with ⟨x, y, hxy⟩
      exact ⟨x, y ++ (String.data ⟨(temp3.data.drop k).take 7⟩), by
        simp only [strData_append, strData_mk]
        rw [hxy]
        simp [List.append_assoc]⟩

theorem appShellHtml_eq_inject (shell head body cssStr ltag ptag live : String)
    (lvl : Nat) :
    appShellHtml shell head body cssStr ltag ptag live lvl =
    inject_scripts_before_body_end
      (pyReplace
        (pyReplace
          (rewriteBrythonDebug
            (replace_title_in_app_shell shell
              (some (orElseTruthy (extract_title_from_head_content head)
                (orElseTruthy (extract_title_from_head_content shell)
                  "HPY Application"))))
            lvl)
          APP_SHELL_HEAD_PLACEHOLDER
          ((cssStr ++ "\n    " ++
            (if truthy (extract_title_from_head_content head) then
              removeFirstSpan "<title" "</title>" head
            else head).pyStrip).pyStrip))
        APP_SHELL_BODY_PLACEHOLDER body)
      ("\n" ++ ltag ++ "\n" ++ ptag ++ "\n" ++ live ++ "\n") := rfl

theorem occursIn_appShellHtml_ltag (shell head body cssStr ltag ptag live : String)
    (lvl : Nat) :
    OccursIn ltag (appShellHtml shell head body cssStr ltag ptag live lvl) := by
  rw [appShellHtml_eq_inject]
  apply occursIn_inject_scripts
  exact ⟨"\n".data, ("\n" ++ ptag ++ "\n" ++ live ++ "\n").data, by
    simp [strData_append, List.append_assoc]⟩

theorem occursIn_appShellHtml_ptag (shell head body cssStr ltag ptag live : String)
    (lvl : Nat) :
    OccursIn ptag (appShellHtml shell head body cssStr ltag ptag live lvl) := by
  rw [appShellHtml_eq_inject]
  apply occursIn_inject_scripts
  exact ⟨("\n" ++ ltag ++ "\n").data, ("\n" ++ live ++ "\n").data, by
    simp [strData_append, List.append_assoc]⟩

theorem occursIn_appShellHtml_live (shell head body cssStr ltag ptag live : String)
    (lvl : Nat) :
    OccursIn live (appShellHtml shell head body cssStr ltag ptag live lvl) := by
  rw [appShellHtml_eq_inject]
  apply occursIn_inject_scripts
  exact ⟨("\n" ++ ltag ++ "\n" ++ ptag ++ "\n").data, "\n".data, by
    simp [strData_append, List.append_assoc]⟩

theorem build_output_html_shell_branch (sh head body styles : String)
    (css : List String) (lt pt : Option String) (stem : String) (dw pb : Bool)
    (h : truthy (some sh) = true) :
    build_output_html (some sh) head body styles css lt pt stem dw pb =
    appShellHtml sh head body (final_css_links_str css) (orEmpty lt) (orEmpty pt)
      (live_reload_injection dw pb) (brython_debug_level pb) := by
  simp only [build_output_html, h, if_true, orEmpty]

theorem replaceAllL_no_occur (fuel : Nat) (pat repl s : List Char)
    (h : occursL pat s = false) : replaceAllL fuel pat repl s = s := by
  induction fuel generalizing s with
  | zero => rfl
  | succ fuel ih =>
    unfold replaceAllL
    by_cases hp : pat.isEmpty
    · rw [if_pos hp]
    · rw [if_neg hp]
      cases s with
      | nil => rfl
      | cons c rest =>
        simp only [occursL, Bool.or_eq_false_iff] at h
        simp only [h.1, Bool.false_eq_true, if_false]
        rw [ih rest h.2]

theorem pyReplace_no_occur (s pat repl : String) (h : occursB pat s = false) :
    pyReplace s pat repl = s := by
  unfold pyReplace
  rw [replaceAllL_no_occur _ _ _ _ h]

theorem app_shell_missing_marker_warnings_ne_nil (shell : String)
    (h : occursB APP_SHELL_HEAD_PLACEHOLDER shell = false ∨
         occursB APP_SHELL_BODY_PLACEHOLDER shell = false) :
    app_shell_missing_marker_warnings shell ≠ [] := by
  rcases h with h | h
  · simp [app_shell_missing_marker_warnings, h]
  · by_cases h2 : occursB APP_SHELL_HEAD_PLACEHOLDER shell <;>
      simp [app_shell_missing_marker_warnings, h, h2]

/-- Side condition for the title-family lemmas below: the string
contains no (case-folded) tag opener, hence no title element and no
further scanner match can start inside it. -/
def noTagOpen (s : String) : Bool := s.data.all (fun c => !(c.toLower == '<'))

theorem findIdxCI_cons_skip (p : List Char) (c : Char) (r : List Char)
    (hc : (c.toLower == '<') = false) (hp : ∃ u, p = '<' :: u) :
    findIdxCI p (c :: r) = (findIdxCI p r).map (· + 1) := by
  obtain ⟨t, rfl⟩ := hp
  have hlw : leadsWithCI ('<' :: t) (c :: r) = false := by
    simp only [leadsWithCI]
    have h1 : (('<' : Char).toLower == c.toLower) = false := by
      have hne : c.toLower ≠ '<' := by
        intro he
        rw [he] at hc
        simp at hc
      rw [show ('<' : Char).toLower = '<' from rfl]
      exact beq_eq_false_iff_ne.mpr (Ne.symm hne)
    rw [h1, Bool.false_and]
  simp [findIdxCI, findIdxBy, hlw]

theorem findIdxCI_append_no_open (p nc X : List Char)
    (hp : ∃ u, p = '<' :: u)
    (hnc : nc.all (fun c => !(c.toLower == '<')) = true) :
    findIdxCI p (nc ++ X) = (findIdxCI p X).map (· + nc.length) := by
  induction nc with
  | nil => simp
  | cons c cs ih =>
    simp only [List.all_cons, Bool.and_eq_true] at hnc
    have hc : (c.toLower == '<') = false := by
      cases hb : (c.toLower == '<')
      · rfl
      · rw [hb] at hnc
        simp at hnc
    rw [List.cons_append, findIdxCI_cons_skip p c (cs ++ X) hc hp, ih hnc.2]
    cases findIdxCI p X with
    | none => rfl
    | some i => simp [Nat.add_assoc]

theorem findTitlePieces_core (nc lt b : List Char)
    (hnc : nc.all (fun c => !(c.toLower == '<')) = true)
    (hlt : lt.all (fun c => !(c.toLower == '<')) = true) :
    findTagBlockPieces "title"
      ⟨nc ++ ("<title>".data ++ (lt ++ ("</title>".data ++ b)))⟩ =
    some (⟨nc⟩, ⟨lt⟩, ⟨b⟩) := by
  have h0 : findIdxCI ("<" ++ "title").data
      ("<title>".data ++ (lt ++ ("</title>".data ++ b))) = some 0 := rfl
  have h1 : findIdxCI ("<" ++ "title").data
      (nc ++ ("<title>".data ++ (lt ++ ("</title>".data ++ b)))) =
      some nc.length := by
    rw [findIdxCI_append_no_open ("<" ++ "title").data _ _
      ⟨"title".data, by rfl⟩ hnc, h0]
    simp
  have h2 : findIdxCI ("</" ++ "title" ++ ">").data
      (lt ++ ("</title>".data ++ b)) = some lt.length := by
    rw [findIdxCI_append_no_open ("</" ++ "title" ++ ">").data _ _
      ⟨"/title>".data, by rfl⟩ hlt,
      show findIdxCI ("</" ++ "title" ++ ">").data ("</title>".data ++ b) =
        some 0 from rfl]
    simp
  have hol : ("<" ++ "title").data.length = 6 := rfl
  have hcl : ("</" ++ "title" ++ ">").data.length = 8 := rfl
  have hdrop6 : ("<title>".data ++ (lt ++ ("</title>".data ++ b))).drop 6 =
      '>' :: (lt ++ ("</title>".data ++ b)) := rfl
  have hgt : findIdxCS ['>'] ('>' :: (lt ++ ("</title>".data ++ b))) = some 0 := rfl
  have hdrop8 : ("</title>".data ++ b).drop 8 = b := rfl
  simp only [findTagBlockPieces, strData_mk, h1, hol, dropAppendLen, hdrop6, hgt,
    Nat.zero_add, List.drop_succ_cons, List.drop_zero, h2, hcl, takeAppendLen,
    hdrop8]

theorem extract_title_family (nc lt b : String)
    (hnc : noTagOpen nc = true) (hlt : noTagOpen lt = true) :
    extract_title_from_head_content (nc ++ "<title>" ++ lt ++ "</title>" ++ b) =
    some lt.pyStrip := by
  have harg : nc ++ "<title>" ++ lt ++ "</title>" ++ b =
      (⟨nc.data ++ ("<title>".data ++ (lt.data ++ ("</title>".data ++ b.data)))⟩ :
        String) := by
    apply strExt
    simp [strData_append, strData_mk, List.append_assoc]
  rw [harg]
  unfold extract_title_from_head_content tagBlockInner
  rw [findTitlePieces_core nc.data lt.data b.data hnc hlt]

theorem extract_title_none_of_noTagOpen (s : String) (h : noTagOpen s = true) :
    extract_title_from_head_content s = none := by
  have h1 : findIdxCI ("<" ++ "title").data s.data = none := by
    have h2 := findIdxCI_append_no_open ("<" ++ "title").data s.data []
      ⟨"title".data, by rfl⟩ h
    rw [List.append_nil] at h2
    rw [h2]
    rfl
  simp only [extract_title_from_head_content, tagBlockInner, findTagBlockPieces, h1]

theorem findSpanPieces_title_core (nc lt b : List Char)
    (hnc : nc.all (fun c => !(c.toLower == '<')) = true)
    (hlt : lt.all (fun c => !(c.toLower == '<')) = true) :
    findSpanPieces "<title" "</title>"
      ⟨nc ++ ("<title>".data ++ (lt ++ ("</title>".data ++ b)))⟩ =
    some (⟨nc⟩, ⟨b⟩) := by
  have h0 : findIdxCI ("<title" : String).data
      ("<title>".data ++ (lt ++ ("</title>".data ++ b))) = some 0 := rfl
  have h1 : findIdxCI ("<title" : String).data
      (nc ++ ("<title>".data ++ (lt ++ ("</title>".data ++ b)))) =
      some nc.length := by
    rw [findIdxCI_append_no_open ("<title" : String).data _ _
      ⟨"title".data, by rfl⟩ hnc, h0]
    simp
  have hol : ("<title" : String).data.length = 6 := rfl
  have hdrop6 : ("<title>".data ++ (lt ++ ("</title>".data ++ b))).drop 6 =
      '>' :: (lt ++ ("</title>".data ++ b)) := rfl
  have h2 : findIdxCI ("</title>" : String).data
      ('>' :: (lt ++ ("</title>".data ++ b))) = some (lt.length + 1) := by
    rw [findIdxCI_cons_skip ("</title>" : String).data '>' _ (by rfl)
      ⟨"/title>".data, by rfl⟩]
    rw [findIdxCI_append_no_open ("</title>" : String).data _ _
      ⟨"/title>".data, by rfl⟩ hlt,
      show findIdxCI ("</title>" : String).data ("</title>".data ++ b) =
        some 0 from rfl]
    simp
  have hcl : ("</title>" : String).data.length = 8 := rfl
  have hpost : ('>' :: (lt ++ ("</title>".data ++ b))).drop (lt.length + 1 + 8) =
      b := by
    have he : lt.length + 1 + 8 = (lt.length + 8) + 1 := by omega
    rw [he, List.drop_succ_cons, dropAppendLen]
    rfl
  simp only [findSpanPieces, strData_mk, h1, hol, dropAppendLen, hdrop6, h2, hcl,
    takeAppendLen, hpost]

theorem removeFirstSpan_title_family (nc lt b : String) (hnc : noTagOpen nc = true)
    (hlt : noTagOpen lt = true) :
    removeFirstSpan "<title" "</title>" (nc ++ "<title>" ++ lt ++ "</title>" ++ b) =
    nc ++ b := by
  have harg : nc ++ "<title>" ++ lt ++ "</title>" ++ b =
      (⟨nc.data ++ ("<title>".data ++ (lt.data ++ ("</title>".data ++ b.data)))⟩ :
        String) := by
    apply strExt
    simp [strData_append, strData_mk, List.append_assoc]
  rw [harg]
  unfold removeFirstSpan
  rw [findSpanPieces_title_core nc.data lt.data b.data hnc hlt]

theorem replace_title_core (st rest : List Char) (t : String)
    (hst : st.all (fun c => !(c.toLower == '<')) = true)
    (ht : truthy (some t) = true) :
    replace_title_in_app_shell
      ⟨"<head><title>".data ++ (st ++ ("</title>".data ++ rest))⟩ (some t) =
    ⟨"<head><title>".data ++ (t.data ++ ("</title>".data ++ rest))⟩ := by
  have hA : findIdxCI ("<head" : String).data
      ("<head><title>".data ++ (st ++ ("</title>".data ++ rest))) = some 0 := rfl
  have hB : ("<head><title>".data ++ (st ++ ("</title>".data ++ rest))).drop (0 + 5) =
      '>' :: '<' :: 't' :: 'i' :: 't' :: 'l' :: 'e' :: '>' ::
        (st ++ ("</title>".data ++ rest)) := rfl
  have hC : findIdxCS ['>']
      ('>' :: '<' :: 't' :: 'i' :: 't' :: 'l' :: 'e' :: '>' ::
        (st ++ ("</title>".data ++ rest))) = some 0 := rfl
  have hD : ('>' :: '<' :: 't' :: 'i' :: 't' :: 'l' :: 'e' :: '>' ::
      (st ++ ("</title>".data ++ rest))).drop (0 + 1) =
      '<' :: 't' :: 'i' :: 't' :: 'l' :: 'e' :: '>' ::
        (st ++ ("</title>".data ++ rest)) := rfl
  have hE : findIdxCI ("<title" : String).data
      ('<' :: 't' :: 'i' :: 't' :: 'l' :: 'e' :: '>' ::
        (st ++ ("</title>".data ++ rest))) = some 0 := rfl
  have hF : ('<' :: 't' :: 'i' :: 't' :: 'l' :: 'e' :: '>' ::
      (st ++ ("</title>".data ++ rest))).drop (0 + 6) =
      '>' :: (st ++ ("</title>".data ++ rest)) := rfl
  have hG : findIdxCS ['>'] ('>' :: (st ++ ("</title>".data ++ rest))) =
      some 0 := rfl
  have hH : ('>' :: (st ++ ("</title>".data ++ rest))).drop (0 + 1) =
      st ++ ("</title>".data ++ rest) := rfl
  have hI : findIdxCI ("</title>" : String).data
      (st ++ ("</title>".data ++ rest)) = some st.length := by
    rw [findIdxCI_append_no_open ("</title>" : String).data _ _
      ⟨"/title>".data, by rfl⟩ hst,
      show findIdxCI ("</title>" : String).data ("</title>".data ++ rest) =
        some 0 from rfl]
    simp
  have hK : ("<head><title>".data ++
      (st ++ ("</title>".data ++ rest))).take (0 + 5 + 0 + 1 + 0 + 6) =
      "<head><title".data := rfl
  have hL : (st ++ ("</title>".data ++ rest)).drop (st.length + 8) = rest := by
    rw [dropAppendLen]
    rfl
  simp only [replace_title_in_app_shell, ht, Bool.not_true, Bool.false_eq_true,
    if_false, strData_mk, hA, hB, hC, hD, hE, hF, hG, hH, hI, hK, hL, orEmpty]
  apply strExt
  simp only [strData_mk, strData_append, List.append_assoc]
  rfl

theorem replace_title_family (st rest t : String)
    (hst : noTagOpen st = true) (ht : truthy (some t) = true) :
    replace_title_in_app_shell ("<head><title>" ++ st ++ "</title>" ++ rest)
      (some t) =
    "<head><title>" ++ t ++ "</title>" ++ rest := by
  have harg : "<head><title>" ++ st ++ "</title>" ++ rest =
      (⟨"<head><title>".data ++ (st.data ++ ("</title>".data ++ rest.data))⟩ :
        String) := by
    apply strExt
    simp [strData_append, strData_mk, List.append_assoc]
  rw [harg, replace_title_core st.data rest.data t hst ht]
  apply strExt
  simp only [strData_mk, strData_append, List.append_assoc]

theorem compile_head_concat
    (name : String) (shell : Option String) (l page : ParseResult)
    (ext : Option String) (css : List String) (stem : String) (dw pb : Bool)
    (hl hp : String)
    (h1 : l.head_content = some hl) (h2 : (hl == "") = false)
    (h3 : page.head_content = some hp) (h4 : (hp == "") = false)
    (h5 : l.style = "") (h6 : page.style = "")
    (h7 : occursB LAYOUT_PLACEHOLDER l.html = true) :
    compile_hpy_file name shell (some l) page ext css stem dw pb =
    .ok (build_output_html shell
      (((CSS_HREF_sub hl).pyStrip ++ "\n" ++ (CSS_HREF_sub hp).pyStrip).pyStrip)
      ((pyReplace l.html LAYOUT_PLACEHOLDER page.html).pyStrip)
      ""
      css
      (some (layoutPythonScriptTag l.python))
      (some (pagePythonScriptTag ext (if truthy ext then none else page.python)
        (!(truthy l.python))))
      stem dw pb) := by
  have hps : (("" ++ "") : String).pyStrip = "" := rfl
  simp only [compile_hpy_file, h1, h3, h5, h6, h7, orEmpty, truthy, h2, h4,
    Bool.not_false, Bool.not_true, beq_self_eq_true, if_false, if_true,
    Option.some_bind, hps, Bool.true_and, Bool.and_false, Bool.false_eq_true]

/-- App shell carrying a Brython bootstrap call at debug level 1,
both injection markers and a `</body>` tag. -/
def shellC4 : String :=
  "<html><head><title>S</title>\n<!-- HPY_HEAD_CONTENT -->\n</head>\n<body onload=\"brython(\x7b\x27debug\x27: 1\x7d)\">\n<!-- HPY_BODY_CONTENT -->\n</body>\n</html>"

/-- Claim C4: the numeric Brython debug level targeted by the build is
0 for a production build and 1 otherwise — emitted directly in the
bootstrap call of the synthesized no-shell skeleton, and applied to
every app-shell build through `brython_debug_level` and the in-place
rewrite of an existing bootstrap call (shown retargeting any 0/1-level
call, and end-to-end on a shell carrying such a call); the live-reload
script block is embedded when building in development-watch mode and
not in production — in the no-shell skeleton and, via the `</body>`
script injection, in every app-shell build; and whenever
dev-watch-and-not-production fails — in particular in any production
build, regardless of the watch flag — the output is byte-identical to
the plain non-watch build, which contains no reload script. -/
theorem C4_debug_level_and_live_reload :
    (∀ (head body styles : String) (css : List String) (lt pt : Option String)
      (stem : String) (dw pb : Bool),
      OccursIn (brythonCall (if pb then 0 else 1))
        (build_output_html none head body styles css lt pt stem dw pb)) ∧
    (∀ (head body styles : String) (css : List String) (lt pt : Option String)
      (stem : String),
      OccursIn LIVE_RELOAD_SCRIPT
        (build_output_html none head body styles css lt pt stem true false)) ∧
    (∀ (shell : Option String) (head body styles : String) (css : List String)
      (lt pt : Option String) (stem : String) (dw pb : Bool),
      (dw && !pb) = false →
      build_output_html shell head body styles css lt pt stem dw pb =
      build_output_html shell head body styles css lt pt stem false pb) ∧
    (∀ (sh head body styles : String) (css : List String) (lt pt : Option String)
      (stem : String) (dw pb : Bool),
      truthy (some sh) = true →
      build_output_html (some sh) head body styles css lt pt stem dw pb =
      appShellHtml sh head body (final_css_links_str css) (orEmpty lt) (orEmpty pt)
        (live_reload_injection dw pb) (brython_debug_level pb)) ∧
    (∀ (sh head body styles : String) (css : List String) (lt pt : Option String)
      (stem : String),
      truthy (some sh) = true →
      OccursIn LIVE_RELOAD_SCRIPT
        (build_output_html (some sh) head body styles css lt pt stem true false)) ∧
    (∀ pb0 pb : Bool,
      rewriteBrythonDebug (brythonCall (brython_debug_level pb0))
        (brython_debug_level pb) = brythonCall (if pb then 0 else 1)) ∧
    (∀ pb : Bool,
      OccursIn (brythonCall (if pb then 0 else 1))
        (build_output_html (some shellC4) "" "" "" [] none none "idx" false pb)) := by
  refine ⟨fun head body styles css lt pt stem dw pb => ?_,
    fun head body styles css lt pt stem => ?_,
    fun shell head body styles css lt pt stem dw pb h => ?_,
    fun sh head body styles css lt pt stem dw pb h => ?_,
    fun sh head body styles css lt pt stem h => ?_,
    fun pb0 pb => ?_,
    fun pb => ?_⟩
  · refine occursIn_of_decomp _
      (noShellBeforeBrython
        (orElseTruthy (extract_title_from_head_content head)
          ("HPY Application (" ++ stem ++ ")"))
        (final_css_links_str css) styles head)
      (("\">\n" ++ body ++ "\n" ++ orEmpty lt ++ "\n" ++ orEmpty pt ++ "\n") ++
        (live_reload_injection dw pb ++ "\n</body>\n</html>")) _ ?_
    simp [build_output_html, noShellHtml, truthy, brython_debug_level,
      strAppend_assoc]
  · refine occursIn_of_decomp _
      (noShellBeforeBrython
        (orElseTruthy (extract_title_from_head_content head)
          ("HPY Application (" ++ stem ++ ")"))
        (final_css_links_str css) styles head ++
       (brythonCall 1 ++
        ("\">\n" ++ body ++ "\n" ++ orEmpty lt ++ "\n" ++ orEmpty pt ++ "\n")))
      "\n</body>\n</html>" _ ?_
    simp [build_output_html, noShellHtml, truthy, brython_debug_level,
      live_reload_injection, strAppend_assoc]
  · simp only [build_output_html, live_reload_injection, h, Bool.false_and,
      Bool.false_eq_true, if_false]
  · exact build_output_html_shell_branch sh head body styles css lt pt stem dw pb h
  · rw [build_output_html_shell_branch sh head body styles css lt pt stem true
      false h]
    exact occursIn_appShellHtml_live sh head body (final_css_links_str css)
      (orEmpty lt) (orEmpty pt) LIVE_RELOAD_SCRIPT (brython_debug_level false)
  · cases pb0 <;> cases pb <;> rfl
  · cases pb
    · exact (occursB_iff _ _).mp (by rfl)
    · exact (occursB_iff _ _).mp (by rfl)

theorem C4_debug_level_and_live_reload_witness :
    (build_output_html none "" "" "" [] none none "idx" true true =
     build_output_html none "" "" "" [] none none "idx" false true) ∧
    (build_output_html (some "<body></body>") "" "" "" [] none none "idx" false
        false =
      appShellHtml "<body></body>" "" "" (final_css_links_str []) (orEmpty none)
        (orEmpty none) (live_reload_injection false false)
        (brython_debug_level false)) ∧
    OccursIn LIVE_RELOAD_SCRIPT
      (build_output_html (some "<body></body>") "" "" "" [] none none "idx" true
        false) :=
  ⟨C4_debug_level_and_live_reload.2.2.1 none "" "" "" [] none none "idx" true true (by decide),
   C4_debug_level_and_live_reload.2.2.2.1 "<body></body>" "" "" "" [] none none "idx" false false (by rfl),
   C4_debug_level_and_live_reload.2.2.2.2.1 "<body></body>" "" "" "" [] none none "idx" (by rfl)⟩

/-! ## Concrete shell/layout/page scenarios for the title and
placeholder-fallback claims -/

/-- App shell with its own title and both injection markers. -/
def shellC1 : String :=
  "<!DOCTYPE html>\n<html>\n<head>\n<title>Shell T</title>\n<!-- HPY_HEAD_CONTENT -->\n</head>\n<body>\n<!-- HPY_BODY_CONTENT -->\n</body>\n</html>"

/-- Layout whose head fragment carries a title. -/
def layoutC1 : String :=
  "<hpy-head>\n<title>Layout T</title>\n</hpy-head>\n<hpy-body>\n<div>\n<!-- HPY_PAGE_CONTENT -->\n</div>\n</hpy-body>"

/-- Layout whose head fragment carries no title. -/
def layoutC1b : String :=
  "<hpy-head><meta name=\"m\"></hpy-head>\n<hpy-body>\n<div>\n<!-- HPY_PAGE_CONTENT -->\n</div>\n</hpy-body>"

/-- Page whose head fragment carries a title. -/
def pageC1 : String :=
  "<html>\n<p>Hello</p>\n</html>\n<hpy-head>\n<title>Page T</title>\n</hpy-head>"

/-- The parse of `layoutC1`. -/
def layoutC1parsed : ParseResult :=
  ⟨"<div>\n<!-- HPY_PAGE_CONTENT -->\n</div>", "", none, none,
   some "<title>Layout T</title>"⟩

/-- The parse of `layoutC1b`. -/
def layoutC1bparsed : ParseResult :=
  ⟨"<div>\n<!-- HPY_PAGE_CONTENT -->\n</div>", "", none, none,
   some "<meta name=\"m\">"⟩

/-- The parse of `pageC1`. -/
def pageC1parsed : ParseResult :=
  ⟨"<p>Hello</p>", "", none, none, some "<title>Page T</title>"⟩

/-- Compiled output for shell + titled layout + titled page. -/
def outC1 : String :=
  "<!DOCTYPE html>\n<html>\n<head>\n<title>Layout T</title>\n<title>Page T</title>\n</head>\n<body>\n<div>\n<p>Hello</p>\n</div>\n\n\n\n\n</body>\n</html>"

/-- Compiled output for shell + untitled layout + titled page. -/
def outC1b : String :=
  "<!DOCTYPE html>\n<html>\n<head>\n<title>Page T</title>\n<meta name=\"m\">\n</head>\n<body>\n<div>\n<p>Hello</p>\n</div>\n\n\n\n\n</body>\n</html>"

/-- Claim C1 counterexample: with a shell title "Shell T", a layout
head title "Layout T" and a page head title "Page T", the compiled
document's title element is "Layout T" — not the page's title — and
the output contains two title elements, not exactly one. -/
theorem C1_title_precedence_counterexample :
    parse_hpy_file layoutC1 true = .ok layoutC1parsed ∧
    parse_hpy_file pageC1 false = .ok pageC1parsed ∧
    compile_hpy_file "index.hpy" (some shellC1) (some layoutC1parsed) pageC1parsed
      none [] "index" false false = .ok outC1 ∧
    extract_title_from_head_content outC1 = some "Layout T" ∧
    countOccur "<title" outC1 = 2 := by
  refine ⟨by rfl, by rfl, by rfl, by rfl, by rfl⟩

/-- App shell with both injection markers but no title element of
its own. -/
def shellC1d : String :=
  "<!DOCTYPE html>\n<html>\n<head>\n<!-- HPY_HEAD_CONTENT -->\n</head>\n<body>\n<!-- HPY_BODY_CONTENT -->\n</body>\n</html>"

/-- Page whose head fragment carries no title. -/
def pageC1b : String :=
  "<html>\n<p>Hello</p>\n</html>\n<hpy-head>\n<meta name=\"p\">\n</hpy-head>"

/-- The parse of `pageC1b`. -/
def pageC1bparsed : ParseResult :=
  ⟨"<p>Hello</p>", "", none, none, some "<meta name=\"p\">"⟩

/-- Compiled output for shell + untitled layout + untitled page: the
shell keeps its own title. -/
def outC1c : String :=
  "<!DOCTYPE html>\n<html>\n<head>\n<title>Shell T</title>\n<meta name=\"m\">\n<meta name=\"p\">\n</head>\n<body>\n<div>\n<p>Hello</p>\n</div>\n\n\n\n\n</body>\n</html>"

/-- Compiled output for the title-less shell with untitled fragments:
the generated default title is inserted before `</head>`. -/
def outC1d : String :=
  "<!DOCTYPE html>\n<html>\n<head>\n<meta name=\"m\">\n<meta name=\"p\">\n    <title>HPY Application</title>\n</head>\n<body>\n<div>\n<p>Hello</p>\n</div>\n\n\n\n\n</body>\n</html>"

/-- Claim C1 (as amended): for every compile with a layout, the head
fragment handed to the builder is the layout head followed by the page
head (proved for every pair of parses with nonempty heads and empty
styles); the title consumed for the shell is the FIRST title element of
that fragment — proved for every fragment of the shape
prefix ++ title-element ++ rest with markup-free prefix and title text
— so a layout head title wins over a page head title; a fragment with
no tag opener yields no title; the consumed title replaces the shell's
existing title element in place (proved for every shell of the shape
head-open ++ title-element ++ rest); and only that first consumed title
tag is stripped from the injected head content, so when both the
layout and the page supply titles the page's title survives as a
second title element.  Concrete builds exhibit every arm: layout wins
with a duplicate title, the page wins when the layout head is
title-less, the shell keeps its own title when the fragment has none,
and the generated default "HPY Application" is inserted before
`</head>` when the shell lacks a title too. -/
theorem C1_title_precedence_amended :
    (∀ (name : String) (shell : Option String) (l page : ParseResult)
      (ext : Option String) (css : List String) (stem : String) (dw pb : Bool)
      (hl hp : String),
      l.head_content = some hl → (hl == "") = false →
      page.head_content = some hp → (hp == "") = false →
      l.style = "" → page.style = "" →
      occursB LAYOUT_PLACEHOLDER l.html = true →
      compile_hpy_file name shell (some l) page ext css stem dw pb =
      .ok (build_output_html shell
        (((CSS_HREF_sub hl).pyStrip ++ "\n" ++ (CSS_HREF_sub hp).pyStrip).pyStrip)
        ((pyReplace l.html LAYOUT_PLACEHOLDER page.html).pyStrip)
        "" css
        (some (layoutPythonScriptTag l.python))
        (some (pagePythonScriptTag ext (if truthy ext then none else page.python)
          (!(truthy l.python))))
        stem dw pb)) ∧
    (∀ nc lt b : String, noTagOpen nc = true → noTagOpen lt = true →
      extract_title_from_head_content (nc ++ "<title>" ++ lt ++ "</title>" ++ b) =
      some lt.pyStrip) ∧
    (∀ s : String, noTagOpen s = true → extract_title_from_head_content s = none) ∧
    (∀ nc lt b : String, noTagOpen nc = true → noTagOpen lt = true →
      removeFirstSpan "<title" "</title>" (nc ++ "<title>" ++ lt ++ "</title>" ++ b) =
      nc ++ b) ∧
    (∀ st rest t : String, noTagOpen st = true → truthy (some t) = true →
      replace_title_in_app_shell ("<head><title>" ++ st ++ "</title>" ++ rest)
        (some t) = "<head><title>" ++ t ++ "</title>" ++ rest) ∧
    (compile_hpy_file "index.hpy" (some shellC1) (some layoutC1parsed) pageC1parsed
        none [] "index" false false = .ok outC1 ∧
      extract_title_from_head_content outC1 = some "Layout T" ∧
      occursB "<title>Page T</title>" outC1 = true ∧
      occursB "Shell T" outC1 = false ∧
      countOccur "<title" outC1 = 2) ∧
    (parse_hpy_file layoutC1b true = .ok layoutC1bparsed ∧
      compile_hpy_file "index.hpy" (some shellC1) (some layoutC1bparsed)
        pageC1parsed none [] "index" false false = .ok outC1b ∧
      extract_title_from_head_content outC1b = some "Page T" ∧
      countOccur "<title" outC1b = 1) ∧
    (parse_hpy_file pageC1b false = .ok pageC1bparsed ∧
      compile_hpy_file "index.hpy" (some shellC1) (some layoutC1bparsed)
        pageC1bparsed none [] "index" false false = .ok outC1c ∧
      extract_title_from_head_content outC1c = some "Shell T" ∧
      countOccur "<title" outC1c = 1) ∧
    (compile_hpy_file "index.hpy" (some shellC1d) (some layoutC1bparsed)
        pageC1bparsed none [] "index" false false = .ok outC1d ∧
      extract_title_from_head_content outC1d = some "HPY Application" ∧
      occursB "<title>HPY Application</title>" outC1d = true ∧
      countOccur "<title" outC1d = 1) := by
  refine ⟨fun name shell l page ext css stem dw pb hl hp h1 h2 h3 h4 h5 h6 h7 =>
      compile_head_concat name shell l page ext css stem dw pb hl hp h1 h2 h3 h4
        h5 h6 h7,
    extract_title_family,
    extract_title_none_of_noTagOpen,
    removeFirstSpan_title_family,
    replace_title_family,
    ⟨by rfl, by rfl, by rfl, by rfl, by rfl⟩,
    ⟨by rfl, by rfl, by rfl, by rfl⟩,
    ⟨by rfl, by rfl, by rfl, by rfl⟩,
    ⟨by rfl, by rfl, by rfl, by rfl⟩⟩

theorem C1_title_precedence_amended_witness :
    compile_hpy_file "index.hpy" (some shellC1) (some layoutC1parsed) pageC1parsed
      none [] "index" false false =
      .ok (build_output_html (some shellC1)
        (((CSS_HREF_sub "<title>Layout T</title>").pyStrip ++ "\n" ++
          (CSS_HREF_sub "<title>Page T</title>").pyStrip).pyStrip)
        ((pyReplace layoutC1parsed.html LAYOUT_PLACEHOLDER
          pageC1parsed.html).pyStrip)
        "" []
        (some (layoutPythonScriptTag layoutC1parsed.python))
        (some (pagePythonScriptTag none
          (if truthy none then none else pageC1parsed.python)
          (!(truthy layoutC1parsed.python))))
        "index" false false) ∧
    extract_title_from_head_content ("x" ++ "<title>" ++ "T" ++ "</title>" ++ "y") =
      some "T" ∧
    extract_title_from_head_content "no markup here" = none ∧
    removeFirstSpan "<title" "</title>"
      ("x" ++ "<title>" ++ "T" ++ "</title>" ++ "y") = "x" ++ "y" ∧
    replace_title_in_app_shell ("<head><title>" ++ "S" ++ "</title>" ++ "</head>")
      (some "N") = "<head><title>" ++ "N" ++ "</title>" ++ "</head>" :=
  ⟨C1_title_precedence_amended.1 "index.hpy" (some shellC1) layoutC1parsed pageC1parsed none [] "index"
     false false "<title>Layout T</title>" "<title>Page T</title>" (by rfl)
     (by rfl) (by rfl) (by rfl) (by rfl) (by rfl) (by rfl),
   C1_title_precedence_amended.2.1 "x" "T" "y" (by rfl) (by rfl),
   C1_title_precedence_amended.2.2.1 "no markup here" (by rfl),
   C1_title_precedence_amended.2.2.2.1 "x" "T" "y" (by rfl) (by rfl),
   C1_title_precedence_amended.2.2.2.2.1 "S" "</head>" "N" (by rfl) (by rfl)⟩

/-- App shell lacking both injection markers. -/
def shellC9 : String := "<html><head><title>S</title></head><body>SHELL</body></html>"

/-- External page-script tag used in the `shellC9` scenarios. -/
def extTagC9 : String :=
  "<script type=\"text/python\" src=\"app.py\" id=\"_hpy_page_script_external\"></script>"

/-- Output for `shellC9` with nonempty head/body fragments. -/
def outC9 : String :=
  "<html><head><title>S</title></head><body>SHELL\n\n" ++ extTagC9 ++
  "\n\n</body></html>"

/-- Claim C9 counterexample: with an app shell missing both
placeholder markers, warnings are emitted and the build completes, but
the assembled head content and body content are NOT inserted at the
`</head>`/`</body>` insertion points — they are absent from the
output (silently lost), contrary to the claimed fallback. -/
theorem C9_shell_marker_fallback_counterexample :
    occursB "<meta x>"
      (build_output_html (some shellC9) "<meta x>" "PAGEBODY" "" [] none
        (some extTagC9) "idx" false false) = false ∧
    occursB "PAGEBODY"
      (build_output_html (some shellC9) "<meta x>" "PAGEBODY" "" [] none
        (some extTagC9) "idx" false false) = false ∧
    app_shell_missing_marker_warnings shellC9 =
      ["Warning: App Shell missing " ++ APP_SHELL_HEAD_PLACEHOLDER,
       "Warning: App Shell missing " ++ APP_SHELL_BODY_PLACEHOLDER] := by
  refine ⟨by rfl, by rfl, by rfl⟩

/-- Claim C9 (as amended): for every app shell missing the head or the
body placeholder marker a warning is emitted (and the build continues);
the replacement that injects the assembled head/body content is the
identity whenever its marker is absent — for every shell and every
content — so that content is silently dropped from the output; but the
script tags and the live-reload block are inserted into every
shell-branch output by `</body>` substring replacement (or appended),
so every dev-watch non-production shell build carries the reload
script; concretely, a marker-less shell build completes with both
warnings, succeeds in directory mode with zero failures, and its
output lacks the head and body fragments while keeping the script
tag. -/
theorem C9_shell_marker_fallback_amended :
    (∀ shell : String,
      occursB APP_SHELL_HEAD_PLACEHOLDER shell = false ∨
      occursB APP_SHELL_BODY_PLACEHOLDER shell = false →
      app_shell_missing_marker_warnings shell ≠ []) ∧
    (∀ s r : String, occursB APP_SHELL_HEAD_PLACEHOLDER s = false →
      pyReplace s APP_SHELL_HEAD_PLACEHOLDER r = s) ∧
    (∀ s r : String, occursB APP_SHELL_BODY_PLACEHOLDER s = false →
      pyReplace s APP_SHELL_BODY_PLACEHOLDER r = s) ∧
    (∀ (shell head body cssStr ltag ptag live : String) (lvl : Nat),
      OccursIn ltag (appShellHtml shell head body cssStr ltag ptag live lvl) ∧
      OccursIn ptag (appShellHtml shell head body cssStr ltag ptag live lvl) ∧
      OccursIn live (appShellHtml shell head body cssStr ltag ptag live lvl)) ∧
    (∀ (sh head body styles : String) (css : List String) (lt pt : Option String)
      (stem : String), truthy (some sh) = true →
      OccursIn LIVE_RELOAD_SCRIPT
        (build_output_html (some sh) head body styles css lt pt stem true false)) ∧
    (build_output_html (some shellC9) "<meta x>" "PAGEBODY" "" [] none
        (some extTagC9) "idx" false false = outC9 ∧
      occursB extTagC9 outC9 = true ∧
      occursB "<meta x>" outC9 = false ∧
      occursB "PAGEBODY" outC9 = false ∧
      app_shell_missing_marker_warnings shellC9 =
        ["Warning: App Shell missing " ++ APP_SHELL_HEAD_PLACEHOLDER,
         "Warning: App Shell missing " ++ APP_SHELL_BODY_PLACEHOLDER] ∧
      compile_directory
        ⟨true, some shellC9, none,
         [⟨[], "p.hpy", "<python src=\"app.py\"></python><html>PAGEBODY</html>"⟩],
         [⟨0, ["app.py"]⟩], none⟩ false false = .ok (["p.html"], 0)) := by
  refine ⟨app_shell_missing_marker_warnings_ne_nil,
    fun s r h => pyReplace_no_occur s _ r h,
    fun s r h => pyReplace_no_occur s _ r h,
    fun shell head body cssStr ltag ptag live lvl =>
      ⟨occursIn_appShellHtml_ltag shell head body cssStr ltag ptag live lvl,
       occursIn_appShellHtml_ptag shell head body cssStr ltag ptag live lvl,
       occursIn_appShellHtml_live shell head body cssStr ltag ptag live lvl⟩,
    fun sh head body styles css lt pt stem h => ?_,
    ⟨by rfl, by rfl, by rfl, by rfl, by rfl, by rfl⟩⟩
  rw [build_output_html_shell_branch sh head body styles css lt pt stem true
    false h]
  exact occursIn_appShellHtml_live sh head body (final_css_links_str css)
    (orEmpty lt) (orEmpty pt) LIVE_RELOAD_SCRIPT (brython_debug_level false)

theorem C9_shell_marker_fallback_amended_witness :
    app_shell_missing_marker_warnings shellC9 ≠ [] ∧
    pyReplace shellC9 APP_SHELL_HEAD_PLACEHOLDER "X" = shellC9 ∧
    pyReplace shellC9 APP_SHELL_BODY_PLACEHOLDER "Y" = shellC9 ∧
    OccursIn LIVE_RELOAD_SCRIPT
      (build_output_html (some shellC9) "" "" "" [] none none "i" true false) :=
  ⟨C9_shell_marker_fallback_amended.1 shellC9 (Or.inl (by rfl)),
   C9_shell_marker_fallback_amended.2.1 shellC9 "X" (by rfl),
   C9_shell_marker_fallback_amended.2.2.1 shellC9 "Y" (by rfl),
   C9_shell_marker_fallback_amended.2.2.2.2.1 shellC9 "" "" "" [] none none "i" (by rfl)⟩
